import Mathlib

/-!
Verification of the per-input orchestration pipeline of
`src/blind/solve-field.c` (astrometry.net).

The development is a shallow embedding of `main` (lines 144-712) and the
static helpers of that file.  The filesystem is modelled as the list of
paths that currently exist; every external program invocation is recorded
in an ordered trace, and the result of each external call is supplied by an
`Env` oracle.  Machinery the C file delegates to other translation units
(`file_exists`, `shell_escape`, `create_temp_file`, `basename`/template
expansion) is modelled from the spec where noted.
-/

namespace SolveField

/-- A filesystem state: the list of paths that currently exist. -/
abbrev FS := List String

/-- Modelled from the spec: `file_exists` (ioutils, outside src/) tests
whether a path currently exists on the filesystem. -/
def fileExists (fs : FS) (p : String) : Bool := decide (p ∈ fs)

/-- Modelled from the spec: `file_exists` applied to a possibly-NULL path
(`char*`); a NULL path never names an existing file. -/
def fileExistsOpt (fs : FS) : Option String → Bool
  | none => false
  | some p => fileExists fs p

/-- Creation of a file: the external tool's documented side effect of
writing its target path. -/
def fsAdd (fs : FS) (p : String) : FS := if p ∈ fs then fs else p :: fs

/-- `unlink(fn)`: removal of a path from the filesystem. -/
def fsRemove (fs : FS) (p : String) : FS := fs.filter (fun q => decide (q ≠ p))

/-- ASCII lower-casing of one character, as C `tolower` in the default
locale. -/
def asciiLower (c : Char) : Char :=
  if 'A' ≤ c ∧ c ≤ 'Z' then Char.ofNat (c.toNat + 32) else c

/-- `strncasecmp(s, t, n) == 0`: the first `n` characters of `s` and `t`
agree up to ASCII case (comparison stops at the end of a shorter string,
which then differs from a longer one). -/
def strncaseEq (s t : String) (n : Nat) : Bool :=
  decide ((s.data.take n).map asciiLower = (t.data.take n).map asciiLower)

/-- Modelled from the spec: `shell_escape` (ioutils, outside src/) quotes
one token so that it survives shell word-splitting; the exact quoting
scheme is irrelevant to the orchestration logic, only that the derived
path is passed through it. -/
def shell_escape (s : String) : String := "\"" ++ s ++ "\""

/-- Lines 347-357: trim a `.xx` / `.xxx` / `.xxxx` suffix from the base
name by probing offsets 3, 4, 5 from the end of the string (in that
order) for a dot, only when the name is longer than 4 characters.  Returns
the (possibly truncated) base and the suffix when one was found. -/
def trimSuffix (s : String) : String × Option String :=
  let cs := s.data
  let len := cs.length
  if 4 < len then
    if cs.get? (len - 3) = some '.' then
      (String.mk (cs.take (len - 3)), some (String.mk (cs.drop (len - 2))))
    else if cs.get? (len - 4) = some '.' then
      (String.mk (cs.take (len - 4)), some (String.mk (cs.drop (len - 3))))
    else if cs.get? (len - 5) = some '.' then
      (String.mk (cs.take (len - 5)), some (String.mk (cs.drop (len - 4))))
    else (s, none)
  else (s, none)

/-- Lines 363-375: the ordered output file set for a base name, together
with the downloaded-copy path (the last element appended). -/
def mkOutfiles (base : String) (suffix : Option String) : List String × String :=
  let downloadfn := match suffix with
    | some s => base ++ "-downloaded." ++ s
    | none => base ++ "-downloaded"
  ([base ++ ".axy", base ++ ".match", base ++ ".rdls", base ++ ".solved",
    base ++ ".wcs", base ++ "-objs.png", base ++ "-indx.png",
    base ++ "-ngc.png", base ++ "-indx.xyls", downloadfn], downloadfn)

/-- Lines 363-395: the output file set actually scanned for existence and
deletion.  When the pre-supplied solved input path equals the derived
solved-flag path, line 393 executes `sl_pop(outfiles)`, which removes the
LAST element of the list (the downloaded-copy path). -/
def derivedOutfiles (solvedinfn : Option String) (name : String) : List String :=
  let base := (trimSuffix name).1
  let outs := (mkOutfiles base (trimSuffix name).2).1
  if solvedinfn = some (base ++ ".solved") then outs.dropLast else outs

/-- Lines 400-411: the `skip_solved` check.  The loop walks
`tocheck[] = { axy->solvedinfn, axy->solvedfn }`, skips NULL entries, and
then tests `file_exists(axy->solvedinfn)` — the loop variable is not used
in the existence test. -/
def skipSolvedFires (skip_solved : Bool) (solvedinfn : Option String)
    (solvedfn : String) (fs : FS) : Bool :=
  skip_solved &&
    ([solvedinfn, some solvedfn].any
      (fun t => t.isSome && fileExistsOpt fs solvedinfn))

/-- Outcome of the existing-output scan of lines 413-431. -/
inductive ResolveResult where
  | skip (fs : FS)
  | fatalR (fs : FS)
  | proceed (fs : FS)
deriving DecidableEq

/-- Lines 413-431: walk the output file set in order.  A path that does
not exist is ignored; under `--continue` an existing path is left alone;
under `--overwrite` it is unlinked, a failed unlink being fatal
(`exit(-1)`); under the default policy the input is abandoned
(`goto nextfile`). -/
def resolveOutputs (cont overwrite : Bool) (failUnlink : String → Bool)
    (fs : FS) : List String → ResolveResult
  | [] => .proceed fs
  | fn :: rest =>
    if fileExists fs fn then
      if cont then resolveOutputs cont overwrite failUnlink fs rest
      else if overwrite then
        if failUnlink fn then .fatalR fs
        else resolveOutputs cont overwrite failUnlink (fsRemove fs fn) rest
      else .skip fs
    else resolveOutputs cont overwrite failUnlink fs rest

/-- Result of `run_command` (lines 110-129): zero exit, or a failure;
`cancelled` records whether `WIFSIGNALED && WTERMSIG == SIGTERM` set the
`ctrlc` out-parameter. -/
inductive ExecOutcome where
  | success
  | failure (cancelled : Bool)
deriving DecidableEq

/-- The external programs and routines the pipeline can invoke for one
input, in the spec's terminology. -/
inductive Tool where
  | fetch        -- curl / wget, lines 438-453
  | classify     -- xylist_is_file_xylist, line 462
  | augment      -- augment_xylist, line 482
  | plot1        -- source-overlay plot pipe, line 529
  | solveBackend -- backend, line 549
  | rd2xy        -- wcs_rd2xy, line 568
  | readWcs      -- sip_read_header_file, line 575
  | matchRead    -- matchfile_read_match, line 617
  | plot2        -- index-overlay plot pipe, line 642
  | plotConst    -- plot-constellations, line 670
deriving DecidableEq

/-- Oracle for the outcome of every external call made while processing one
input, plus the data those calls return. -/
structure Env where
  failUnlink : String → Bool       -- unlink(fn) returns nonzero
  findExec : String → Option String -- find_executable (lines 134-142)
  fetchOutcome : ExecOutcome       -- run_command of curl/wget
  isxyls : Bool                    -- xylist_is_file_xylist result
  ppmfn : String                   -- path returned by create_temp_file
  augmentOk : Bool                 -- augment_xylist returns 0
  plot1Outcome : ExecOutcome       -- first plotting pipe
  backendOk : Bool                 -- run_command_get_outputs of backend
  solves : Bool                    -- backend creates the solved-flag file
  rd2xyOk : Bool                   -- wcs_rd2xy returns 0
  wcsReadOk : Bool                 -- sip_read_header_file succeeds
  matchOpenOk : Bool               -- matchfile_open succeeds
  matchReadOk : Bool               -- matchfile_read_match succeeds
  dimquads : Nat                   -- mo->dimquads
  quadpixTokens : List String      -- the "%g"-rendered mo->quadpix values
  plot2Outcome : ExecOutcome       -- second plotting pipe
  constOk : Bool                   -- plot-constellations
  constLines : List String         -- its captured stdout lines

/-- Per-iteration mutable state threaded through the pipeline phases,
together with the observation fields the theorems read off. -/
structure St where
  fs : FS
  invoked : List Tool
  tempfiles : List String
  makeplots : Bool
  classifiedInput : Option String      -- path handed to the classifier
  solvedGate : Option Bool             -- value of file_exists(solvedfn) at line 556
  fetchErrCmdline : Option (List String) -- cmdline read by the ERROR at line 450
  beargsAtSolve : Option (List String) -- backendargs when the solve cmd is imploded
deriving DecidableEq, Inhabited

/-- Batch options fixed before the loop (lines 144-284). `solvedinfn0` is
`axy->solvedinfn` as copied from the batch-wide config at line 308; the
local `solvedin`/`solvedindir` of lines 378-390 are never assigned in this
file (the `-i` option is commented out), so lines 378-390 leave it
unchanged. -/
structure Config where
  cont : Bool
  overwrite : Bool
  skip_solved : Bool
  verbose : Bool
  usecurl : Bool
  xcol : Option String
  ycol : Option String
  solvedinfn0 : Option String

/-- How one input's iteration ended. -/
inductive IterOutcome where
  | fatal        -- exit(-1): the whole run aborts
  | skipSolved   -- goto nextfile from the skip_solved check
  | skipExisting -- goto nextfile from the existing-output scan
  | done         -- fell through to the nextfile label
deriving DecidableEq, Inhabited

/-- Result of one input's iteration. -/
structure IterResult where
  outcome : IterOutcome
  st : St
  beargsOut : List String -- backendargs as left for the next iteration
  outfn : String          -- the derived canonical coordinate-list path
deriving DecidableEq, Inhabited

/-- The state an `Except`-valued phase ended in, fatal or not. -/
def stOfE : Except St St → St
  | .error s => s
  | .ok s => s

/-- The state the whole post-resolve pipeline ended in. -/
def stOfP : Except St (St × List String) → St
  | .error s => s
  | .ok (s, _) => s

/-- Lines 438-443: the fetch command tokens. -/
def mkFetchCmdline (cfg : Config) (downloadfn infile : String) : List String :=
  [if cfg.usecurl then "curl" else "wget"]
    ++ (if !cfg.verbose then [if cfg.usecurl then "--silent" else "--quiet"] else [])
    ++ [if cfg.usecurl then "--output" else "-O",
        shell_escape downloadfn, shell_escape infile]

/-- Condition of line 434: the input is fetched when it does not exist
locally and carries a recognized remote-locator scheme. -/
def wantsFetch (fs : FS) (infile : String) : Bool :=
  !(fileExists fs infile) &&
    (strncaseEq infile "http://" 7 || strncaseEq infile "ftp://" 6)

/-- Lines 433-457: the acquisition stage.  The token list is imploded into
`cmd` and emptied by `sl_remove_all` BEFORE `run_command` executes; on a
nonzero or cancelled result the `ERROR` call reads element 0 of that
(now empty) list and the process exits.  On success the downloaded copy
replaces the input reference. -/
def fetchPhase (cfg : Config) (env : Env) (downloadfn infile : String)
    (st : St) : Except St (St × String) :=
  if wantsFetch st.fs infile then
    let cmdTokens := mkFetchCmdline cfg downloadfn infile
    let _cmd := String.intercalate " " cmdTokens
    let cmdline : List String := []   -- sl_remove_all(cmdline), line 446
    let st := { st with invoked := st.invoked ++ [Tool.fetch] }
    match env.fetchOutcome with
    | .success => Except.ok ({ st with fs := fsAdd st.fs downloadfn }, downloadfn)
    | .failure _ => Except.error { st with fetchErrCmdline := some cmdline }
  else
    Except.ok (st, infile)

/-- Lines 490-524: the source-overlay plot tokens (two `plotxy` programs
joined by a pipe, redirected into the objs image). -/
def mkPlot1Cmdline (cfg : Config) (ex : String) (imagefn : Bool)
    (ppmfn outfn objsfn : String) : List String :=
  [shell_escape ex, "-i", shell_escape outfn]
    ++ (if imagefn then ["-I", shell_escape ppmfn] else [])
    ++ (match cfg.xcol with | some x => ["-X", shell_escape x] | none => [])
    ++ (match cfg.ycol with | some y => ["-Y", shell_escape y] | none => [])
    ++ ["-P", "-C red -w 2 -N 50 -x 1 -y 1", "|",
        shell_escape ex, "-i", shell_escape outfn]
    ++ (match cfg.xcol with | some x => ["-X", shell_escape x] | none => [])
    ++ (match cfg.ycol with | some y => ["-Y", shell_escape y] | none => [])
    ++ ["-I - -w 2 -r 3 -C red -n 50 -N 200 -x 1 -y 1", ">", shell_escape objsfn]

/-- Lines 487-541: the first plotting stage.  A missing `plotxy`
executable is fatal (`append_executable` exits); a cancelled plot command
is fatal; any other failure merely clears `makeplots` and processing
continues. -/
def plot1Phase (cfg : Config) (env : Env) (imagefn : Bool)
    (ppmfn outfn objsfn : String) (st : St) : Except St St :=
  if st.makeplots then
    match env.findExec "plotxy" with
    | none => Except.error st
    | some ex =>
      let _cmd := String.intercalate " " (mkPlot1Cmdline cfg ex imagefn ppmfn outfn objsfn)
      let st := { st with invoked := st.invoked ++ [Tool.plot1] }
      match env.plot1Outcome with
      | .success => Except.ok st
      | .failure true => Except.error st
      | .failure false => Except.ok { st with makeplots := false }
  else Except.ok st

/-- Lines 586-649: the index-overlay plotting pipe, built from two
`plotxy` stages, the first match record, and a `plotquad` stage.  Any
failure — missing executable, unreadable match file, or a nonzero or
cancelled plot command — is fatal. -/
def plot2Phase (env : Env) (st : St) : Except St St :=
  if st.makeplots then
    match env.findExec "plotxy" with
    | none => Except.error st
    | some _ =>
      if !env.matchOpenOk then Except.error st
      else
        let st := { st with invoked := st.invoked ++ [Tool.matchRead] }
        if !env.matchReadOk then Except.error st
        else
          match env.findExec "plotquad" with
          | none => Except.error st
          | some _ =>
            let st := { st with invoked := st.invoked ++ [Tool.plot2] }
            match env.plot2Outcome with
            | .success => Except.ok st
            | .failure _ => Except.error st
  else Except.ok st

/-- Lines 651-685: constellation labelling, run only for image inputs with
plotting still enabled; a missing executable or nonzero exit is fatal. -/
def constPhase (env : Env) (imagefn : Bool) (st : St) : Except St St :=
  if imagefn && st.makeplots then
    match env.findExec "plot-constellations" with
    | none => Except.error st
    | some _ =>
      let st := { st with invoked := st.invoked ++ [Tool.plotConst] }
      if env.constOk then Except.ok st else Except.error st
  else Except.ok st

/-- Lines 611-649 tail and 651-685: the second plotting pipe followed by
the constellation stage (both inside the solved gate). -/
def reportPlots (env : Env) (imagefn : Bool) (st : St) : Except St St :=
  match plot2Phase env st with
  | .error st => Except.error st
  | .ok st => constPhase env imagefn st

/-- Lines 556-688: the post-solve gate and reporting.  If the solved-flag
file does not exist the branch is silently skipped; otherwise the index
stars are reprojected (fatal on failure), the WCS header is read (fatal on
failure), and the two remaining plot stages run. -/
def reportPhase (env : Env) (imagefn : Bool) (solvedfn : String)
    (st : St) : Except St St :=
  if fileExists st.fs solvedfn then
    if !env.rd2xyOk then
      Except.error { st with solvedGate := some true,
                             invoked := st.invoked ++ [Tool.rd2xy] }
    else if !env.wcsReadOk then
      Except.error { st with solvedGate := some true,
                             invoked := st.invoked ++ [Tool.rd2xy, Tool.readWcs] }
    else
      reportPlots env imagefn
        { st with solvedGate := some true,
                  invoked := st.invoked ++ [Tool.rd2xy, Tool.readWcs] }
  else Except.ok { st with solvedGate := some false }

/-- Lines 459-485 state changes: classification (routing into xylist or
image handling), allocation of the temporary ppm conversion target for
image inputs (`create_temp_file`, scriptutils, creates the file), and the
augment-xylist invocation record. -/
def preSolveSt (env : Env) (infile : String) (st : St) : St :=
  { st with
    invoked := (st.invoked ++ [Tool.classify]) ++ [Tool.augment],
    classifiedInput := some infile,
    tempfiles := st.tempfiles ++ (if !env.isxyls then [env.ppmfn] else []),
    fs := if !env.isxyls then fsAdd st.fs env.ppmfn else st.fs }

/-- Lines 543-554: the solve stage; the per-file token is appended to the
shared backend argument list, the command imploded and run; any nonzero
exit is fatal. -/
def solveStep (env : Env) (beargs : List String) (outfn : String)
    (st : St) : Except St St :=
  if !env.backendOk then
    Except.error { st with invoked := st.invoked ++ [Tool.solveBackend],
                           beargsAtSolve := some (beargs ++ [shell_escape outfn]) }
  else
    Except.ok { st with invoked := st.invoked ++ [Tool.solveBackend],
                        beargsAtSolve := some (beargs ++ [shell_escape outfn]) }

/-- The backend's documented side effect: the solved-flag file appears
exactly when the field solves. -/
def postSolveSt (env : Env) (solvedfn : String) (st : St) : St :=
  if env.solves then { st with fs := fsAdd st.fs solvedfn } else st

/-- Lines 459-688: the tail of one iteration, from classification onward,
once `infile` has settled (possibly replaced by the downloaded copy).
`Except.error` is a process-fatal `exit(-1)`. -/
def pipelineAfterFetch (cfg : Config) (env : Env) (beargs : List String)
    (outfn solvedfn objsfn : String) (st : St) (infile : String) :
    Except St (St × List String) :=
  -- lines 482-485: augment-xylist, fatal on nonzero
  if !env.augmentOk then Except.error (preSolveSt env infile st)
  else
    match plot1Phase cfg env (!env.isxyls) env.ppmfn outfn objsfn
        (preSolveSt env infile st) with
    | .error st => Except.error st
    | .ok st =>
      match solveStep env beargs outfn st with
      | .error st => Except.error st
      | .ok st =>
        match reportPhase env (!env.isxyls) solvedfn
            (postSolveSt env solvedfn st) with
        | .error st => Except.error st
        | .ok st => Except.ok (st, beargs ++ [shell_escape outfn])

/-- Lines 433-688: everything after the existing-output scan.  Returns the
final state together with the backend argument list as it stands after the
per-file token was appended (line 543). -/
def pipelineAfterResolve (cfg : Config) (env : Env) (beargs : List String)
    (infile downloadfn outfn solvedfn objsfn : String) (st : St) :
    Except St (St × List String) :=
  match fetchPhase cfg env downloadfn infile st with
  | .error st => Except.error st
  | .ok (st, infile) =>
    pipelineAfterFetch cfg env beargs outfn solvedfn objsfn st infile

/-- Lines 691-700: the nextfile label.  Every registered temp file is
unlinked (a failed unlink only logs), and the per-iteration collections
are drained. -/
def cleanupTemps (failUnlink : String → Bool) (fs : FS)
    (temps : List String) : FS :=
  temps.foldl (fun fs fn => if failUnlink fn then fs else fsRemove fs fn) fs

/-- Package a non-fatal iteration end: control reached the nextfile label,
so the temp artifacts are unlinked. -/
def finishNonFatal (o : IterOutcome) (failUnlink : String → Bool) (st : St)
    (beargs : List String) (outfn : String) : IterResult :=
  { outcome := o,
    st := { st with fs := cleanupTemps failUnlink st.fs st.tempfiles },
    beargsOut := beargs, outfn := outfn }

/-- Lines 332-703: one trip through the batch loop for one input.  `name`
is the templated/basename-reduced output stem of lines 338-346 (computed
by `asprintf_safe`/`basename`, outside the modelled core); `beargsIn` is
the shared backend argument list as the previous iteration left it, and
`nbeargs` the batch-wide prefix length captured at line 284.  A fatal
branch (`exit(-1)`) returns immediately without reaching the cleanup. -/
def runInput (cfg : Config) (env : Env) (nbeargs : Nat)
    (beargsIn : List String) (mkplots : Bool) (fs0 : FS)
    (infile name : String) : IterResult :=
  -- line 335: sl_remove_from(backendargs, nbeargs)
  let beargs := beargsIn.take nbeargs
  let base := (trimSuffix name).1
  let downloadfn := (mkOutfiles base (trimSuffix name).2).2
  let outfn := base ++ ".axy"
  let solvedfn := base ++ ".solved"
  let objsfn := base ++ "-objs.png"
  let solvedinfn := cfg.solvedinfn0
  let outfiles := derivedOutfiles solvedinfn name
  let st0 : St := { fs := fs0, invoked := [], tempfiles := [],
                    makeplots := mkplots, classifiedInput := none,
                    solvedGate := none, fetchErrCmdline := none,
                    beargsAtSolve := none }
  if skipSolvedFires cfg.skip_solved solvedinfn solvedfn fs0 then
    finishNonFatal .skipSolved env.failUnlink st0 beargs outfn
  else
    match resolveOutputs cfg.cont cfg.overwrite env.failUnlink fs0 outfiles with
    | .skip fs1 =>
      finishNonFatal .skipExisting env.failUnlink { st0 with fs := fs1 } beargs outfn
    | .fatalR fs1 =>
      { outcome := .fatal, st := { st0 with fs := fs1 },
        beargsOut := beargs, outfn := outfn }
    | .proceed fs1 =>
      match pipelineAfterResolve cfg env beargs infile downloadfn outfn
          solvedfn objsfn { st0 with fs := fs1 } with
      | .error st =>
        { outcome := .fatal, st := st, beargsOut := beargs, outfn := outfn }
      | .ok (st, beargsF) =>
        finishNonFatal .done env.failUnlink st beargsF outfn

/-- One batch input: the raw reference, its derived output stem, and the
oracle for the external calls made while processing it. -/
structure InputSpec where
  infile : String
  name : String
  env : Env

/-- Outcome of the whole run: the process exit status and the per-input
results, in order, up to and including a fatal one. -/
structure BatchResult where
  exit : Int
  results : List IterResult

/-- The batch loop of lines 286-704, threading the filesystem, the shared
backend argument list and the `makeplots` flag across iterations; a fatal
iteration aborts the run with `exit(-1)`. -/
def runBatchAux (cfg : Config) (nbeargs : Nat) :
    List String → Bool → FS → List InputSpec → BatchResult
  | _, _, _, [] => { exit := 0, results := [] }
  | beargs, mkplots, fs, inp :: rest =>
    let r := runInput cfg inp.env nbeargs beargs mkplots fs inp.infile inp.name
    if r.outcome = .fatal then { exit := -1, results := [r] }
    else
      let b := runBatchAux cfg nbeargs r.beargsOut r.st.makeplots r.st.fs rest
      { exit := b.exit, results := r :: b.results }

/-- The whole run: the batch-wide backend argument prefix is captured once
(line 284) and the loop is entered; line 711 returns 0 on normal
completion. -/
def runBatch (cfg : Config) (beargs0 : List String) (mkplots : Bool)
    (fs : FS) (inputs : List InputSpec) : BatchResult :=
  runBatchAux cfg beargs0.length beargs0 mkplots fs inputs

/-! ### Concrete instantiations used by the closed theorems -/

/-- An oracle in which every external call succeeds, for an xylist input
that does not solve. -/
def envBase : Env :=
  { failUnlink := fun _ => false
    findExec := fun _ => some "/usr/local/astrometry/bin/tool"
    fetchOutcome := .success
    isxyls := true
    ppmfn := "/tmp/tmp.ppm"
    augmentOk := true
    plot1Outcome := .success
    backendOk := true
    solves := false
    rd2xyOk := true
    wcsReadOk := true
    matchOpenOk := true
    matchReadOk := true
    dimquads := 4
    quadpixTokens := []
    plot2Outcome := .success
    constOk := true
    constLines := [] }

/-- The default option set: no overwrite, no continue, no skip-solved. -/
def cfgDefault : Config :=
  { cont := false, overwrite := false, skip_solved := false, verbose := false,
    usecurl := true, xcol := none, ycol := none, solvedinfn0 := none }

/-- `--skip-solved --continue`, the resume configuration of claim C2. -/
def cfgC2 : Config := { cfgDefault with cont := true, skip_solved := true }

/-- Image input whose augment step fails (claim C3's counterexample). -/
def envC3 : Env := { envBase with isxyls := false, augmentOk := false }

/-- Image input processed successfully without plots (claim C3's witness). -/
def envC3w : Env := { envBase with isxyls := false }

/-- Remote input whose fetch fails with a nonzero exit (claim C10). -/
def envC10 : Env := { envBase with fetchOutcome := .failure false }

/-- Remote input fetched successfully (claim C4's witness). -/
def envC4w : Env := envBase

/-- First-plot failure that is not a cancellation (claim C5's witness). -/
def envC5a : Env := { envBase with plot1Outcome := .failure false }

/-- First-plot failure by user cancellation (claim C5's witness). -/
def envC5b : Env := { envBase with plot1Outcome := .failure true }

/-- Solved field whose second plotting pipe fails (claim C5's witness). -/
def envC5c : Env :=
  { envBase with solves := true, plot2Outcome := .failure false }

/-- Solved field, plots disabled (claim C6 / C9 witnesses). -/
def envSolved : Env := { envBase with solves := true }

/-- The head result of a one-input batch that reaches the solve stage
(claim C9's witness). -/
def c9WitnessResult : IterResult :=
  ((runBatch cfgDefault ["backend"] false ["a.xyls"]
      [⟨"a.xyls", "a.xyls", envSolved⟩]).results).headI

/-! ### Helper lemmas -/

theorem not_mem_cleanupTemps_of_not_mem (u : String → Bool) (l : List String)
    (fs : FS) (p : String) (h : p ∉ fs) : p ∉ cleanupTemps u fs l := by
  induction l generalizing fs with
  | nil => exact h
  | cons fn rest ih =>
    have hstep : cleanupTemps u fs (fn :: rest)
        = cleanupTemps u (if u fn then fs else fsRemove fs fn) rest := rfl
    rw [hstep]
    apply ih
    split
    · exact h
    · intro hc
      exact h (List.mem_of_mem_filter hc)

theorem not_mem_cleanupTemps (u : String → Bool) (l : List String) (fs : FS)
    (fn : String) (hmem : fn ∈ l) (hu : u fn = false) :
    fn ∉ cleanupTemps u fs l := by
  induction l generalizing fs with
  | nil => cases hmem
  | cons fn1 rest ih =>
    have hstep : cleanupTemps u fs (fn1 :: rest)
        = cleanupTemps u (if u fn1 then fs else fsRemove fs fn1) rest := rfl
    rw [hstep]
    rcases List.mem_cons.mp hmem with heq | htail
    · subst heq
      by_cases hr : fn ∈ rest
      · exact ih _ hr
      · apply not_mem_cleanupTemps_of_not_mem
        rw [if_neg (by simp [hu])]
        simp [fsRemove]
    · exact ih _ htail

theorem cleanupTemps_eq_of_mem (u : String → Bool) (l : List String) (fs : FS)
    (fn : String) (hmem : fn ∈ l) (hu : u fn = false) :
    fileExists (cleanupTemps u fs l) fn = false := by
  simpa [fileExists] using not_mem_cleanupTemps u l fs fn hmem hu

/-- Every iteration either aborts the process or reaches the nextfile
cleanup label. -/
theorem runInput_shape (cfg : Config) (env : Env) (nbeargs : Nat)
    (beargsIn : List String) (mkplots : Bool) (fs0 : FS) (infile name : String) :
    (runInput cfg env nbeargs beargsIn mkplots fs0 infile name).outcome = .fatal ∨
    ∃ o st beargs outfn, runInput cfg env nbeargs beargsIn mkplots fs0 infile name =
      finishNonFatal o env.failUnlink st beargs outfn := by
  unfold runInput
  dsimp only
  split
  · exact Or.inr ⟨_, _, _, _, rfl⟩
  · split
    · exact Or.inr ⟨_, _, _, _, rfl⟩
    · exact Or.inl rfl
    · split
      · exact Or.inl rfl
      · exact Or.inr ⟨_, _, _, _, rfl⟩

/-- Default policy: the scan skips as soon as some output path exists, and
the filesystem is left untouched. -/
theorem resolveOutputs_default_skip (u : String → Bool) (fs : FS)
    (l : List String) (h : ∃ fn ∈ l, fileExists fs fn = true) :
    resolveOutputs false false u fs l = .skip fs := by
  induction l with
  | nil => rcases h with ⟨fn, hm, _⟩; cases hm
  | cons fn rest ih =>
    rcases h with ⟨fn1, hm, hex⟩
    rcases List.mem_cons.mp hm with heq | htail
    · subst heq
      simp [resolveOutputs, hex]
    · by_cases hf : fileExists fs fn = true
      · simp [resolveOutputs, hf]
      · simp only [resolveOutputs, hf, Bool.false_eq_true, if_false]
        exact ih ⟨fn1, htail, hex⟩

/-- Continue policy: nothing is deleted and the scan proceeds. -/
theorem resolveOutputs_continue (ow : Bool) (u : String → Bool) (fs : FS)
    (l : List String) : resolveOutputs true ow u fs l = .proceed fs := by
  induction l with
  | nil => rfl
  | cons fn rest ih =>
    by_cases hf : fileExists fs fn = true <;> simp [resolveOutputs, hf, ih]

/-- Overwrite policy with no unlink failure: the scan proceeds, every
member of the output set is gone afterwards, and no other path is
touched. -/
theorem resolveOutputs_overwrite_ok (u : String → Bool) (l : List String)
    (fs : FS) (h : ∀ fn ∈ l, u fn = false) :
    ∃ fs1, resolveOutputs false true u fs l = .proceed fs1
      ∧ (∀ fn ∈ l, fileExists fs1 fn = false)
      ∧ (∀ p, p ∉ l → fileExists fs1 p = fileExists fs p) := by
  induction l generalizing fs with
  | nil => exact ⟨fs, rfl, by simp, fun p _ => rfl⟩
  | cons fn rest ih =>
    by_cases hf : fileExists fs fn = true
    · have hu : u fn = false := h fn (List.mem_cons_self _ _)
      rcases ih (fsRemove fs fn) (fun g hg => h g (List.mem_cons_of_mem _ hg))
        with ⟨fs1, heq, hall, hother⟩
      refine ⟨fs1, ?_, ?_, ?_⟩
      · simp [resolveOutputs, hf, hu, heq]
      · intro g hg
        rcases List.mem_cons.mp hg with rfl | hgr
        · by_cases hr : g ∈ rest
          · exact hall g hr
          · rw [hother g hr]
            simp [fileExists, fsRemove]
        · exact hall g hgr
      · intro p hp
        have hp1 : p ≠ fn := fun hh => hp (hh ▸ List.mem_cons_self _ _)
        have hp2 : p ∉ rest := fun hh => hp (List.mem_cons_of_mem _ hh)
        rw [hother p hp2]
        simp [fileExists, fsRemove, hp1]
    · rcases ih fs (fun g hg => h g (List.mem_cons_of_mem _ hg))
        with ⟨fs1, heq, hall, hother⟩
      refine ⟨fs1, ?_, ?_, ?_⟩
      · simp only [resolveOutputs, hf, Bool.false_eq_true, if_false]
        exact heq
      · intro g hg
        rcases List.mem_cons.mp hg with rfl | hgr
        · by_cases hr : g ∈ rest
          · exact hall g hr
          · rw [hother g hr]
            simpa using hf
        · exact hall g hgr
      · intro p hp
        exact hother p (fun hh => hp (List.mem_cons_of_mem _ hh))

/-- Overwrite policy: if some member of the output set exists and its
unlink fails, the scan ends in the fatal branch (`exit(-1)`). -/
theorem resolveOutputs_overwrite_fatal (u : String → Bool) (l : List String)
    (fs : FS) (h : ∃ fn ∈ l, fileExists fs fn = true ∧ u fn = true) :
    ∃ fs1, resolveOutputs false true u fs l = .fatalR fs1 := by
  induction l generalizing fs with
  | nil => rcases h with ⟨fn, hm, _⟩; cases hm
  | cons fn1 rest ih =>
    rcases h with ⟨fn, hm, hex, hu⟩
    by_cases hf : fileExists fs fn1 = true
    · by_cases hu1 : u fn1 = true
      · exact ⟨fs, by simp [resolveOutputs, hf, hu1]⟩
      · have hne : fn ≠ fn1 := by
          intro hh
          rw [hh] at hu
          exact hu1 hu
        have hm2 : fn ∈ rest := by
          rcases List.mem_cons.mp hm with h1 | h2
          · exact absurd h1 hne
          · exact h2
        have hex2 : fileExists (fsRemove fs fn1) fn = true := by
          simp only [fileExists, fsRemove, decide_eq_true_eq, List.mem_filter] at hex ⊢
          exact ⟨hex, by simp [hne]⟩
        rcases ih (fsRemove fs fn1) ⟨fn, hm2, hex2, hu⟩ with ⟨fs1, heq⟩
        refine ⟨fs1, ?_⟩
        simp only [resolveOutputs, hf, if_true, hu1, Bool.false_eq_true, if_false]
        simpa using heq
    · have hne : fn ≠ fn1 := by
        intro hh
        rw [hh] at hex
        exact hf hex
      have hm2 : fn ∈ rest := by
        rcases List.mem_cons.mp hm with h1 | h2
        · exact absurd h1 hne
        · exact h2
      rcases ih fs ⟨fn, hm2, hex, hu⟩ with ⟨fs1, heq⟩
      refine ⟨fs1, ?_⟩
      simp only [resolveOutputs, hf, Bool.false_eq_true, if_false]
      exact heq

/-- When the skip-solved check does not fire and the existing-output scan
skips, the iteration ends as a non-fatal skip, the filesystem untouched. -/
theorem runInput_skipExisting (cfg : Config) (env : Env) (nbeargs : Nat)
    (beargsIn : List String) (mkplots : Bool) (fs0 : FS) (infile name : String)
    (fsS : FS)
    (hss : skipSolvedFires cfg.skip_solved cfg.solvedinfn0
      ((trimSuffix name).1 ++ ".solved") fs0 = false)
    (hres : resolveOutputs cfg.cont cfg.overwrite env.failUnlink fs0
      (derivedOutfiles cfg.solvedinfn0 name) = .skip fsS) :
    runInput cfg env nbeargs beargsIn mkplots fs0 infile name =
      { outcome := .skipExisting,
        st := { fs := fsS, invoked := [], tempfiles := [], makeplots := mkplots,
                classifiedInput := none, solvedGate := none,
                fetchErrCmdline := none, beargsAtSolve := none },
        beargsOut := beargsIn.take nbeargs,
        outfn := (trimSuffix name).1 ++ ".axy" } := by
  unfold runInput
  dsimp only
  simp only [hss, Bool.false_eq_true, if_false, hres]
  simp [finishNonFatal, cleanupTemps]

/-- A fatal existing-output scan makes the whole iteration fatal. -/
theorem runInput_fatal_of_resolveFatal (cfg : Config) (env : Env)
    (nbeargs : Nat) (beargsIn : List String) (mkplots : Bool) (fs0 : FS)
    (infile name : String) (fsS : FS)
    (hss : skipSolvedFires cfg.skip_solved cfg.solvedinfn0
      ((trimSuffix name).1 ++ ".solved") fs0 = false)
    (hres : resolveOutputs cfg.cont cfg.overwrite env.failUnlink fs0
      (derivedOutfiles cfg.solvedinfn0 name) = .fatalR fsS) :
    (runInput cfg env nbeargs beargsIn mkplots fs0 infile name).outcome = .fatal := by
  unfold runInput
  dsimp only
  simp only [hss, Bool.false_eq_true, if_false, hres]

/-- **C7.** Suffix extraction from the derived base name probes only
offsets 3 through 5 from the end for a dot, and only when the name is
longer than 4 characters: "foo.png" yields base "foo" and suffix "png";
"foo.jpeg" yields base "foo" and suffix "jpeg"; a name with no dot at
those offsets, or of length at most 4, is returned unchanged with no
suffix. -/
theorem c7_suffix_extraction :
    trimSuffix "foo.png" = ("foo", some "png")
    ∧ trimSuffix "foo.jpeg" = ("foo", some "jpeg")
    ∧ (∀ s : String, s.data.length ≤ 4 → trimSuffix s = (s, none))
    ∧ (∀ s : String, s.data.get? (s.data.length - 3) ≠ some '.' →
        s.data.get? (s.data.length - 4) ≠ some '.' →
        s.data.get? (s.data.length - 5) ≠ some '.' →
        trimSuffix s = (s, none)) := by
  refine ⟨by decide, by decide, ?_, ?_⟩
  · intro s h
    simp only [trimSuffix]
    rw [if_neg (by omega)]
  · intro s h3 h4 h5
    simp only [trimSuffix]
    by_cases hl : 4 < s.data.length
    · rw [if_pos hl, if_neg h3, if_neg h4, if_neg h5]
    · rw [if_neg hl]

/-- Witness for C7 at concrete inputs with no dot in the probe window. -/
theorem c7_suffix_extraction_witness :
    trimSuffix "foo" = ("foo", none) ∧ trimSuffix "barbaz" = ("barbaz", none) :=
  ⟨c7_suffix_extraction.2.2.1 "foo" (by decide),
   c7_suffix_extraction.2.2.2 "barbaz" (by decide) (by decide) (by decide)⟩

/-- **C8 (code bug).** When the pre-supplied solved path equals the derived
solved-flag path, line 393's `sl_pop(outfiles)` removes the LAST member of
the output set — the downloaded-copy path — and the solved-flag path stays
in the existence/deletion scan, contradicting the comment on line 392
("don't delete the input!") and the claim. -/
theorem c8_pop_removes_downloaded_not_solved :
    "foo.solved" ∈ derivedOutfiles (some "foo.solved") "foo"
    ∧ "foo-downloaded" ∉ derivedOutfiles (some "foo.solved") "foo"
    ∧ "foo-downloaded" ∈ derivedOutfiles none "foo" := by
  decide

/-- **C2 (code bug).** With `--skip-solved --continue` and no pre-supplied
solved reference (`axy->solvedinfn == NULL`), the derived solved-flag file
"foo.solved" exists before acquisition, yet the check of lines 400-411
tests `file_exists(axy->solvedinfn)` — i.e. `file_exists(NULL)` — instead
of the loop entry, so the input is NOT skipped: the pipeline classifies,
augments and solves it (five tool invocations instead of zero). -/
theorem c2_skip_solved_never_fires :
    skipSolvedFires true none "foo.solved" ["foo", "foo.solved"] = false
    ∧ (runInput cfgC2 envBase 1 ["backend"] false ["foo", "foo.solved"]
        "foo" "foo").outcome = .done
    ∧ (runInput cfgC2 envBase 1 ["backend"] false ["foo", "foo.solved"]
        "foo" "foo").st.invoked =
      [Tool.classify, Tool.augment, Tool.solveBackend, Tool.rd2xy, Tool.readWcs] := by
  decide

/-- **C10 (code bug).** In the fetch-failure branch, `sl_remove_all`
(line 446) empties the command-token list before `run_command` executes,
so the `ERROR` call of line 450 reads element 0 of an EMPTY list: the
access is out of bounds, refuting the claim that the list is non-empty at
that point. -/
theorem c10_fetch_error_reads_empty_cmdline :
    (runInput cfgDefault envC10 1 ["backend"] false []
        "http://host/img.fits" "img.fits").outcome = .fatal
    ∧ (runInput cfgDefault envC10 1 ["backend"] false []
        "http://host/img.fits" "img.fits").st.fetchErrCmdline = some []
    ∧ ¬ (0 < (([] : List String)).length) := by
  decide

/-- **C3 counterexample.** Image input "sky.png" whose augment step fails:
the temporary ppm conversion file is registered and present, the iteration
aborts the whole process via `exit(-1)` (line 484), and the temp file is
NOT deleted — the claimed cleanup on the fatal exit branch does not
happen. -/
theorem c3_counterexample :
    (runInput cfgDefault envC3 1 ["backend"] false ["sky.png"]
        "sky.png" "sky.png").outcome = .fatal
    ∧ (runInput cfgDefault envC3 1 ["backend"] false ["sky.png"]
        "sky.png" "sky.png").st.tempfiles = ["/tmp/tmp.ppm"]
    ∧ fileExists (runInput cfgDefault envC3 1 ["backend"] false ["sky.png"]
        "sky.png" "sky.png").st.fs "/tmp/tmp.ppm" = true := by
  decide

/-- **C3 (amended).** On every NON-fatal exit branch of an input's
iteration (skip or successful completion), every temp artifact registered
for that input whose unlink succeeds is deleted from the filesystem before
the next input begins; on a fatal abort the process exits immediately
without deleting temp artifacts (see the counterexample). -/
theorem c3_cleanup_on_nonfatal_exits (cfg : Config) (env : Env)
    (nbeargs : Nat) (beargsIn : List String) (mkplots : Bool) (fs0 : FS)
    (infile name : String)
    (h : (runInput cfg env nbeargs beargsIn mkplots fs0 infile name).outcome ≠ .fatal) :
    ∀ fn ∈ (runInput cfg env nbeargs beargsIn mkplots fs0 infile name).st.tempfiles,
      env.failUnlink fn = false →
      fileExists (runInput cfg env nbeargs beargsIn mkplots fs0 infile name).st.fs fn = false := by
  intro fn hmem hu
  rcases runInput_shape cfg env nbeargs beargsIn mkplots fs0 infile name with hf | ⟨o, st, be, ofn, heq⟩
  · exact absurd hf h
  · rw [heq] at hmem ⊢
    exact cleanupTemps_eq_of_mem _ _ _ _ hmem hu

/-- Witness for C3 (amended): a successfully completed image input's ppm
temp file is gone afterwards. -/
theorem c3_cleanup_witness :
    ((runInput cfgDefault envC3w 1 ["backend"] false ["sky.png"]
        "sky.png" "sky.png").outcome ≠ .fatal)
    ∧ fileExists (runInput cfgDefault envC3w 1 ["backend"] false ["sky.png"]
        "sky.png" "sky.png").st.fs "/tmp/tmp.ppm" = false :=
  ⟨by decide,
   c3_cleanup_on_nonfatal_exits cfgDefault envC3w 1 ["backend"] false
     ["sky.png"] "sky.png" "sky.png" (by decide) "/tmp/tmp.ppm" (by decide) rfl⟩

/-- **C1.** For an input whose derived output file set contains a path
that already exists: under the default policy (neither `--overwrite` nor
`--continue`) the input is skipped non-fatally with no deletion and the
batch continues with the remaining inputs; under `--continue` nothing is
deleted and processing proceeds; under `--overwrite` every existing output
path is deleted before proceeding (and nothing outside the set is
touched), while a failed deletion makes the iteration — and hence the
whole run — fatal with nonzero status. -/
theorem c1_existing_output_policy (cfg : Config) (env : Env) (nbeargs : Nat)
    (beargsIn : List String) (mkplots : Bool) (fs0 : FS) (infile name : String)
    (hex : ∃ fn ∈ derivedOutfiles cfg.solvedinfn0 name, fileExists fs0 fn = true)
    (hss : skipSolvedFires cfg.skip_solved cfg.solvedinfn0
      ((trimSuffix name).1 ++ ".solved") fs0 = false) :
    (cfg.cont = false → cfg.overwrite = false →
      (runInput cfg env nbeargs beargsIn mkplots fs0 infile name).outcome = .skipExisting
      ∧ (runInput cfg env nbeargs beargsIn mkplots fs0 infile name).st.fs = fs0
      ∧ ∀ rest, (runBatchAux cfg nbeargs beargsIn mkplots fs0
            (⟨infile, name, env⟩ :: rest)).results.length
          = 1 + (runBatchAux cfg nbeargs (beargsIn.take nbeargs) mkplots fs0
            rest).results.length)
    ∧ (cfg.cont = true →
      resolveOutputs cfg.cont cfg.overwrite env.failUnlink fs0
        (derivedOutfiles cfg.solvedinfn0 name) = .proceed fs0)
    ∧ (cfg.cont = false → cfg.overwrite = true →
      (∀ fn ∈ derivedOutfiles cfg.solvedinfn0 name, env.failUnlink fn = false) →
      ∃ fs1, resolveOutputs cfg.cont cfg.overwrite env.failUnlink fs0
          (derivedOutfiles cfg.solvedinfn0 name) = .proceed fs1
        ∧ (∀ fn ∈ derivedOutfiles cfg.solvedinfn0 name, fileExists fs1 fn = false)
        ∧ (∀ p, p ∉ derivedOutfiles cfg.solvedinfn0 name →
            fileExists fs1 p = fileExists fs0 p))
    ∧ (cfg.cont = false → cfg.overwrite = true →
      (∃ fn ∈ derivedOutfiles cfg.solvedinfn0 name,
        fileExists fs0 fn = true ∧ env.failUnlink fn = true) →
      (runInput cfg env nbeargs beargsIn mkplots fs0 infile name).outcome = .fatal
      ∧ ∀ rest, (runBatchAux cfg nbeargs beargsIn mkplots fs0
          (⟨infile, name, env⟩ :: rest)).exit = -1) := by
  refine ⟨?_, ?_, ?_, ?_⟩
  · intro hc how
    have hskip : resolveOutputs cfg.cont cfg.overwrite env.failUnlink fs0
        (derivedOutfiles cfg.solvedinfn0 name) = .skip fs0 := by
      rw [hc, how]
      exact resolveOutputs_default_skip _ _ _ hex
    have hrun := runInput_skipExisting cfg env nbeargs beargsIn mkplots fs0
      infile name fs0 hss hskip
    refine ⟨by rw [hrun], by rw [hrun], ?_⟩
    intro rest
    simp only [runBatchAux, hrun]
    simp [Nat.add_comm]
  · intro hc
    rw [hc]
    exact resolveOutputs_continue _ _ _ _
  · intro hc how hu
    rw [hc, how]
    exact resolveOutputs_overwrite_ok _ _ _ hu
  · intro hc how hfail
    rcases resolveOutputs_overwrite_fatal env.failUnlink
      (derivedOutfiles cfg.solvedinfn0 name) fs0 hfail with ⟨fs1, heq⟩
    have heq2 : resolveOutputs cfg.cont cfg.overwrite env.failUnlink fs0
        (derivedOutfiles cfg.solvedinfn0 name) = .fatalR fs1 := by
      rw [hc, how]
      exact heq
    have hout := runInput_fatal_of_resolveFatal cfg env nbeargs beargsIn
      mkplots fs0 infile name fs1 hss heq2
    refine ⟨hout, ?_⟩
    intro rest
    simp only [runBatchAux, hout]
    simp

/-- Witness for C1 at a concrete input: prior `stars.solved` on disk,
default policy, input scenario of the spec's scenario B stem. -/
theorem c1_existing_output_policy_witness :
    (runInput cfgDefault envBase 1 ["backend"] true ["stars.solved"]
      "stars.xyls" "stars.xyls").outcome = .skipExisting
    ∧ (runInput cfgDefault envBase 1 ["backend"] true ["stars.solved"]
      "stars.xyls" "stars.xyls").st.fs = ["stars.solved"] :=
  ⟨((c1_existing_output_policy cfgDefault envBase 1 ["backend"] true
      ["stars.solved"] "stars.xyls" "stars.xyls"
      ⟨"stars.solved", by decide, by decide⟩ (by decide)).1 rfl rfl).1,
   ((c1_existing_output_policy cfgDefault envBase 1 ["backend"] true
      ["stars.solved"] "stars.xyls" "stars.xyls"
      ⟨"stars.solved", by decide, by decide⟩ (by decide)).1 rfl rfl).2.1⟩

/-- The first plotting phase only ever appends its own invocation and can
only change the `makeplots` flag. -/
theorem plot1Phase_frame (cfg : Config) (env : Env) (imagefn : Bool)
    (ppmfn outfn objsfn : String) (st : St) :
    ∃ ext m, (∀ t ∈ ext, t = Tool.plot1)
      ∧ stOfE (plot1Phase cfg env imagefn ppmfn outfn objsfn st)
        = { st with invoked := st.invoked ++ ext, makeplots := m } := by
  obtain ⟨sfs, sinv, stemp, sm, sci, ssg, sfec, sba⟩ := st
  unfold plot1Phase
  cases sm
  · exact ⟨[], false, by simp, by simp [stOfE]⟩
  · cases hfe : env.findExec "plotxy" with
    | none => exact ⟨[], true, by simp, by simp [stOfE, hfe]⟩
    | some ex =>
      cases hp : env.plot1Outcome with
      | success =>
        exact ⟨[Tool.plot1], true, by simp, by simp [stOfE, hfe, hp]⟩
      | failure c =>
        cases c
        · exact ⟨[Tool.plot1], false, by simp, by simp [stOfE, hfe, hp]⟩
        · exact ⟨[Tool.plot1], true, by simp, by simp [stOfE, hfe, hp]⟩

/-- The second plotting phase only appends its own invocations; with
plotting disabled it is a no-op. -/
theorem plot2Phase_frame (env : Env) (st : St) :
    ∃ ext, (∀ t ∈ ext, t = Tool.matchRead ∨ t = Tool.plot2)
      ∧ (st.makeplots = false → ext = [])
      ∧ stOfE (plot2Phase env st) = { st with invoked := st.invoked ++ ext } := by
  obtain ⟨sfs, sinv, stemp, sm, sci, ssg, sfec, sba⟩ := st
  unfold plot2Phase
  cases sm
  · exact ⟨[], by simp, by simp, by simp [stOfE]⟩
  · cases hfe : env.findExec "plotxy" with
    | none => exact ⟨[], by simp, by simp, by simp [stOfE, hfe]⟩
    | some ex =>
      cases hmo : env.matchOpenOk
      · exact ⟨[], by simp, by simp, by simp [stOfE, hfe, hmo]⟩
      · cases hmr : env.matchReadOk
        · exact ⟨[Tool.matchRead], by simp, by simp, by simp [stOfE, hfe, hmo, hmr]⟩
        · cases hfq : env.findExec "plotquad" with
          | none => exact ⟨[Tool.matchRead], by simp, by simp,
              by simp [stOfE, hfe, hmo, hmr, hfq]⟩
          | some exq =>
            cases hp : env.plot2Outcome with
            | success => exact ⟨[Tool.matchRead, Tool.plot2],
                by simp, by simp, by simp [stOfE, hfe, hmo, hmr, hfq, hp]⟩
            | failure c => exact ⟨[Tool.matchRead, Tool.plot2],
                by simp, by simp, by simp [stOfE, hfe, hmo, hmr, hfq, hp]⟩

/-- The constellation phase only appends its own invocation; with plotting
disabled it is a no-op. -/
theorem constPhase_frame (env : Env) (imagefn : Bool) (st : St) :
    ∃ ext, (∀ t ∈ ext, t = Tool.plotConst)
      ∧ (st.makeplots = false → ext = [])
      ∧ stOfE (constPhase env imagefn st) = { st with invoked := st.invoked ++ ext } := by
  obtain ⟨sfs, sinv, stemp, sm, sci, ssg, sfec, sba⟩ := st
  unfold constPhase
  cases sm
  · exact ⟨[], by simp, by simp, by simp [stOfE]⟩
  · cases imagefn
    · exact ⟨[], by simp, by simp, by simp [stOfE]⟩
    · cases hfe : env.findExec "plot-constellations" with
      | none => exact ⟨[], by simp, by simp, by simp [stOfE, hfe]⟩
      | some ex =>
        cases hc : env.constOk
        · exact ⟨[Tool.plotConst], by simp, by simp, by simp [stOfE, hfe, hc]⟩
        · exact ⟨[Tool.plotConst], by simp, by simp, by simp [stOfE, hfe, hc]⟩

/-- The two in-gate plotting stages only append their own invocations;
with plotting disabled they are a no-op. -/
theorem reportPlots_frame (env : Env) (imagefn : Bool) (st : St) :
    ∃ ext, (∀ t ∈ ext, t = Tool.matchRead ∨ t = Tool.plot2 ∨ t = Tool.plotConst)
      ∧ (st.makeplots = false → ext = [])
      ∧ stOfE (reportPlots env imagefn st) = { st with invoked := st.invoked ++ ext } := by
  rcases plot2Phase_frame env st with ⟨e2, he2, he2nil, heq2⟩
  unfold reportPlots
  cases hp2 : plot2Phase env st with
  | error stE =>
    rw [hp2] at heq2
    simp only [stOfE] at heq2
    refine ⟨e2, ?_, he2nil, ?_⟩
    · intro t ht
      rcases he2 t ht with h | h <;> simp [h]
    · show stE = _
      exact heq2
  | ok stO =>
    rw [hp2] at heq2
    simp only [stOfE] at heq2
    rcases constPhase_frame env imagefn stO with ⟨e3, he3, he3nil, heq3⟩
    refine ⟨e2 ++ e3, ?_, ?_, ?_⟩
    · intro t ht
      rcases List.mem_append.mp ht with h1 | h1
      · rcases he2 t h1 with h | h <;> simp [h]
      · simp [he3 t h1]
    · intro hm
      have hm2 : stO.makeplots = false := by
        rw [heq2]
        simpa using hm
      rw [he2nil hm, he3nil hm2]
      rfl
    · show stOfE (constPhase env imagefn stO) = _
      rw [heq3, heq2]
      simp [List.append_assoc]

/-- The post-solve gate: the reporting phase records the solved-flag
check, invokes the reprojector exactly when the flag file exists, is a
recorded no-op otherwise, and only appends reporting/plotting
invocations. -/
theorem reportPhase_spec (env : Env) (imagefn : Bool) (solvedfn : String)
    (st : St) :
    ∃ ext, stOfE (reportPhase env imagefn solvedfn st)
        = { st with invoked := st.invoked ++ ext,
                    solvedGate := some (fileExists st.fs solvedfn) }
      ∧ (fileExists st.fs solvedfn = true → Tool.rd2xy ∈ ext)
      ∧ (fileExists st.fs solvedfn = false → ext = []
          ∧ reportPhase env imagefn solvedfn st
            = .ok (stOfE (reportPhase env imagefn solvedfn st)))
      ∧ (∀ t ∈ ext, t = Tool.rd2xy ∨ t = Tool.readWcs ∨ t = Tool.matchRead
          ∨ t = Tool.plot2 ∨ t = Tool.plotConst)
      ∧ (st.makeplots = false → ∀ t ∈ ext, t = Tool.rd2xy ∨ t = Tool.readWcs) := by
  by_cases hg : fileExists st.fs solvedfn = true
  · rw [reportPhase, if_pos hg]
    cases hrd : env.rd2xyOk
    · refine ⟨[Tool.rd2xy], ?_, by simp, by simp [hg], by simp, by simp⟩
      simp [stOfE, hg]
    · cases hw : env.wcsReadOk
      · refine ⟨[Tool.rd2xy, Tool.readWcs], ?_, by simp, by simp [hg], by simp, by simp⟩
        simp [stOfE, hg]
      · simp only [Bool.not_true, Bool.false_eq_true, if_false]
        rcases reportPlots_frame env imagefn
            { st with solvedGate := some true,
                      invoked := st.invoked ++ [Tool.rd2xy, Tool.readWcs] }
          with ⟨ep, hep, hepnil, heqp⟩
        refine ⟨[Tool.rd2xy, Tool.readWcs] ++ ep, ?_, by simp, by simp [hg], ?_, ?_⟩
        · rw [heqp]
          simp [hg, List.append_assoc]
        · intro t ht
          rcases List.mem_append.mp ht with h1 | h1
          · rcases (by simpa using h1 : t = Tool.rd2xy ∨ t = Tool.readWcs) with rfl | rfl
            · simp
            · simp
          · rcases hep t h1 with h | h
            · simp [h]
            · rcases h with h | h <;> simp [h]
        · intro hm t ht
          rcases List.mem_append.mp ht with h1 | h1
          · exact (by simpa using h1 : t = Tool.rd2xy ∨ t = Tool.readWcs)
          · rw [hepnil (by simpa using hm)] at h1
            cases h1
  · have hg2 : fileExists st.fs solvedfn = false := by simpa using hg
    rw [reportPhase, if_neg hg]
    exact ⟨[], by simp [stOfE, hg2], by simp [hg2], by simp [stOfE], by simp, by simp⟩

/-- A list all of whose members differ from `a` does not contain `a`. -/
theorem not_mem_of_all_ne {α : Type} {a : α} (l : List α)
    (h : ∀ t ∈ l, t ≠ a) : a ∉ l :=
  fun hm => h a hm rfl

/-- The solved-flag file exists right after the backend has created it. -/
theorem fileExists_fsAdd (fs : FS) (p : String) :
    fileExists (fsAdd fs p) p = true := by
  by_cases h : p ∈ fs <;> simp [fileExists, fsAdd, h]

/-- `postSolveSt` only touches the filesystem. -/
theorem postSolveSt_invoked (env : Env) (solvedfn : String) (st : St) :
    (postSolveSt env solvedfn st).invoked = st.invoked := by
  unfold postSolveSt
  cases env.solves <;> simp

theorem postSolveSt_solvedGate (env : Env) (solvedfn : String) (st : St) :
    (postSolveSt env solvedfn st).solvedGate = st.solvedGate := by
  unfold postSolveSt
  cases env.solves <;> simp

theorem postSolveSt_classifiedInput (env : Env) (solvedfn : String) (st : St) :
    (postSolveSt env solvedfn st).classifiedInput = st.classifiedInput := by
  unfold postSolveSt
  cases env.solves <;> simp

theorem postSolveSt_fetchErrCmdline (env : Env) (solvedfn : String) (st : St) :
    (postSolveSt env solvedfn st).fetchErrCmdline = st.fetchErrCmdline := by
  unfold postSolveSt
  cases env.solves <;> simp

theorem postSolveSt_beargsAtSolve (env : Env) (solvedfn : String) (st : St) :
    (postSolveSt env solvedfn st).beargsAtSolve = st.beargsAtSolve := by
  unfold postSolveSt
  cases env.solves <;> simp

theorem postSolveSt_makeplots (env : Env) (solvedfn : String) (st : St) :
    (postSolveSt env solvedfn st).makeplots = st.makeplots := by
  unfold postSolveSt
  cases env.solves <;> simp

/-- One walk through the post-acquisition pipeline: the invocation trace
only grows by non-fetch tools, the classifier input is recorded, the
solved gate is reflected by the reprojector invocation, a negative gate
forces a non-fatal completion, and the backend argument list at the solve
step carries exactly the per-file token. -/
theorem pipelineAfterFetch_spec (cfg : Config) (env : Env)
    (beargs : List String) (outfn solvedfn objsfn : String) (st : St)
    (inf : String)
    (h1 : st.solvedGate = none) (h2 : Tool.rd2xy ∉ st.invoked)
    (h3 : st.beargsAtSolve = none) :
    ∃ ext,
      (stOfP (pipelineAfterFetch cfg env beargs outfn solvedfn objsfn st inf)).invoked
        = st.invoked ++ ext
      ∧ Tool.fetch ∉ ext
      ∧ (stOfP (pipelineAfterFetch cfg env beargs outfn solvedfn objsfn st inf)).classifiedInput
        = some inf
      ∧ (stOfP (pipelineAfterFetch cfg env beargs outfn solvedfn objsfn st inf)).fetchErrCmdline
        = st.fetchErrCmdline
      ∧ ((stOfP (pipelineAfterFetch cfg env beargs outfn solvedfn objsfn st inf)).solvedGate = some true
          ↔ Tool.rd2xy ∈ (stOfP (pipelineAfterFetch cfg env beargs outfn solvedfn objsfn st inf)).invoked)
      ∧ ((stOfP (pipelineAfterFetch cfg env beargs outfn solvedfn objsfn st inf)).solvedGate = some false
          → ∃ pr, pipelineAfterFetch cfg env beargs outfn solvedfn objsfn st inf = .ok pr)
      ∧ ((stOfP (pipelineAfterFetch cfg env beargs outfn solvedfn objsfn st inf)).beargsAtSolve = none
          ∨ (stOfP (pipelineAfterFetch cfg env beargs outfn solvedfn objsfn st inf)).beargsAtSolve
            = some (beargs ++ [shell_escape outfn]))
      ∧ (∀ stO bf, pipelineAfterFetch cfg env beargs outfn solvedfn objsfn st inf = .ok (stO, bf)
          → bf = beargs ++ [shell_escape outfn]) := by
  have hA : (preSolveSt env inf st).invoked
      = st.invoked ++ [Tool.classify, Tool.augment] := by
    simp [preSolveSt]
  have hAg : (preSolveSt env inf st).solvedGate = none := by
    simp [preSolveSt, h1]
  have hAc : (preSolveSt env inf st).classifiedInput = some inf := by
    simp [preSolveSt]
  have hAf : (preSolveSt env inf st).fetchErrCmdline = st.fetchErrCmdline := by
    simp [preSolveSt]
  have hAb : (preSolveSt env inf st).beargsAtSolve = none := by
    simp [preSolveSt, h3]
  have hrdX : Tool.rd2xy ∉ st.invoked ++ [Tool.classify, Tool.augment] := by
    intro hm
    rcases List.mem_append.mp hm with hmm | hmm
    · exact h2 hmm
    · rcases (by simpa using hmm :
        Tool.rd2xy = Tool.classify ∨ Tool.rd2xy = Tool.augment) with hc | hc <;> cases hc
  unfold pipelineAfterFetch
  cases haug : env.augmentOk
  · -- augment fails: fatal right after the preparation stage
    rw [if_pos (show (!false) = true from rfl)]
    simp only [stOfP]
    refine ⟨[Tool.classify, Tool.augment], hA, by decide, hAc, hAf, ?_, ?_, ?_, ?_⟩
    · rw [hAg, hA]
      constructor
      · intro hg
        cases hg
      · intro hm
        exact absurd hm hrdX
    · rw [hAg]
      intro hg
      cases hg
    · left
      exact hAb
    · intro stO bf heq
      cases heq
  · rw [if_neg (by decide : ¬((!true) = true))]
    rcases plot1Phase_frame cfg env (!env.isxyls) env.ppmfn outfn objsfn
      (preSolveSt env inf st) with ⟨e1, m1, he1, heq1⟩
    have hrdXe : Tool.rd2xy ∉ (st.invoked ++ [Tool.classify, Tool.augment]) ++ e1 := by
      intro hm
      rcases List.mem_append.mp hm with hmm | hmm
      · exact hrdX hmm
      · exact absurd (he1 _ hmm) (by decide)
    cases hp1 : plot1Phase cfg env (!env.isxyls) env.ppmfn outfn objsfn
        (preSolveSt env inf st) with
    | error stE =>
      rw [hp1] at heq1
      simp only [stOfE] at heq1
      simp only [stOfP]
      refine ⟨[Tool.classify, Tool.augment] ++ e1, ?_, ?_, ?_, ?_, ?_, ?_, ?_, ?_⟩
      · rw [heq1]
        simp [hA, List.append_assoc]
      · intro hm
        rcases List.mem_append.mp hm with hmm | hmm
        · rcases (by simpa using hmm :
            Tool.fetch = Tool.classify ∨ Tool.fetch = Tool.augment) with hc | hc <;> cases hc
        · exact absurd (he1 _ hmm) (by decide)
      · rw [heq1]
        simpa using hAc
      · rw [heq1]
        simpa using hAf
      · rw [heq1]
        simp only [hAg, hA]
        constructor
        · intro hg
          simp at hg
        · intro hm
          exact absurd hm hrdXe
      · rw [heq1]
        simp only [hAg]
        intro hg
        simp at hg
      · left
        rw [heq1]
        simpa using hAb
      · intro stO bf heq
        cases heq
    | ok stO =>
      rw [hp1] at heq1
      simp only [stOfE] at heq1
      have hOi : stO.invoked = (st.invoked ++ [Tool.classify, Tool.augment]) ++ e1 := by
        rw [heq1]
        simp [hA]
      have hOg : stO.solvedGate = none := by
        rw [heq1]
        simpa using hAg
      have hOc : stO.classifiedInput = some inf := by
        rw [heq1]
        simpa using hAc
      have hOf : stO.fetchErrCmdline = st.fetchErrCmdline := by
        rw [heq1]
        simpa using hAf
      have hOb : stO.beargsAtSolve = none := by
        rw [heq1]
        simpa using hAb
      cases hbe : env.backendOk
      · -- backend fails after being invoked
        simp only [solveStep, hbe]
        rw [if_pos (show (!false) = true from rfl)]
        simp only [stOfP]
        refine ⟨[Tool.classify, Tool.augment] ++ e1 ++ [Tool.solveBackend],
          ?_, ?_, ?_, ?_, ?_, ?_, ?_, ?_⟩
        · simp [hOi, List.append_assoc]
        · intro hm
          simp only [List.mem_append] at hm
          rcases hm with (hm | hm) | hm
          · rcases (by simpa using hm :
              Tool.fetch = Tool.classify ∨ Tool.fetch = Tool.augment) with hc | hc <;> cases hc
          · exact absurd (he1 _ hm) (by decide)
          · exact absurd (by simpa using hm : Tool.fetch = Tool.solveBackend) (by decide)
        · simpa using hOc
        · simpa using hOf
        · simp only [hOg, hOi]
          constructor
          · intro hg
            simp at hg
          · intro hm
            simp only [List.mem_append] at hm
            rcases hm with ((hm | hm) | hm) | hm
            · exact absurd hm h2
            · rcases (by simpa using hm :
                Tool.rd2xy = Tool.classify ∨ Tool.rd2xy = Tool.augment) with hc | hc <;> cases hc
            · exact absurd (he1 _ hm) (by decide)
            · exact absurd (by simpa using hm : Tool.rd2xy = Tool.solveBackend) (by decide)
        · simp only [hOg]
          intro hg
          simp at hg
        · right
          simp
        · intro stO2 bf heq
          cases heq
      · -- backend succeeds; the reporting gate decides the rest
        simp only [solveStep, hbe]
        rw [if_neg (by decide : ¬((!true) = true))]
        dsimp only
        rcases reportPhase_spec env (!env.isxyls) solvedfn
          (postSolveSt env solvedfn
            { stO with invoked := stO.invoked ++ [Tool.solveBackend],
                       beargsAtSolve := some (beargs ++ [shell_escape outfn]) })
          with ⟨er, heqR, hrdm, hfalse, hallR, hmfR⟩
        have hrdXs : Tool.rd2xy ∉
            ((st.invoked ++ [Tool.classify, Tool.augment]) ++ e1) ++ [Tool.solveBackend] := by
          intro hm
          rcases List.mem_append.mp hm with hmm | hmm
          · exact hrdXe hmm
          · exact absurd (by simpa using hmm : Tool.rd2xy = Tool.solveBackend) (by decide)
        cases hrep : reportPhase env (!env.isxyls) solvedfn
            (postSolveSt env solvedfn
              { stO with invoked := stO.invoked ++ [Tool.solveBackend],
                         beargsAtSolve := some (beargs ++ [shell_escape outfn]) }) with
        | error stE2 =>
          rw [hrep] at heqR
          simp only [stOfE] at heqR
          dsimp only
          have hgate : fileExists (postSolveSt env solvedfn
              { stO with invoked := stO.invoked ++ [Tool.solveBackend],
                         beargsAtSolve := some (beargs ++ [shell_escape outfn]) }).fs solvedfn = true := by
            by_cases hgg : fileExists (postSolveSt env solvedfn
                { stO with invoked := stO.invoked ++ [Tool.solveBackend],
                           beargsAtSolve := some (beargs ++ [shell_escape outfn]) }).fs solvedfn = true
            · exact hgg
            · rcases hfalse (by simpa using hgg) with ⟨-, hok⟩
              rw [hrep] at hok
              cases hok
          simp only [stOfP]
          refine ⟨[Tool.classify, Tool.augment] ++ e1 ++ [Tool.solveBackend] ++ er,
            ?_, ?_, ?_, ?_, ?_, ?_, ?_, ?_⟩
          · rw [heqR, postSolveSt_invoked]
            simp [hOi, List.append_assoc]
          · intro hm
            simp only [List.mem_append] at hm
            rcases hm with ((hm | hm) | hm) | hm
            · rcases (by simpa using hm :
                Tool.fetch = Tool.classify ∨ Tool.fetch = Tool.augment) with hc | hc <;> cases hc
            · exact absurd (he1 _ hm) (by decide)
            · exact absurd (by simpa using hm : Tool.fetch = Tool.solveBackend) (by decide)
            · rcases hallR _ hm with h | h | h | h | h <;> cases h
          · rw [heqR, postSolveSt_classifiedInput]
            simpa using hOc
          · rw [heqR, postSolveSt_fetchErrCmdline]
            simpa using hOf
          · rw [heqR]
            constructor
            · intro _
              have hmem := hrdm hgate
              rw [postSolveSt_invoked]
              simp [List.mem_append, hmem]
            · intro _
              simp [hgate]
          · rw [heqR]
            intro hg
            rw [hgate] at hg
            simp at hg
          · right
            rw [heqR, postSolveSt_beargsAtSolve]
          · intro stO2 bf heq
            cases heq
        | ok stO2 =>
          rw [hrep] at heqR
          simp only [stOfE] at heqR
          dsimp only
          simp only [stOfP]
          refine ⟨[Tool.classify, Tool.augment] ++ e1 ++ [Tool.solveBackend] ++ er,
            ?_, ?_, ?_, ?_, ?_, ?_, ?_, ?_⟩
          · rw [heqR, postSolveSt_invoked]
            simp [hOi, List.append_assoc]
          · intro hm
            simp only [List.mem_append] at hm
            rcases hm with ((hm | hm) | hm) | hm
            · rcases (by simpa using hm :
                Tool.fetch = Tool.classify ∨ Tool.fetch = Tool.augment) with hc | hc <;> cases hc
            · exact absurd (he1 _ hm) (by decide)
            · exact absurd (by simpa using hm : Tool.fetch = Tool.solveBackend) (by decide)
            · rcases hallR _ hm with h | h | h | h | h <;> cases h
          · rw [heqR, postSolveSt_classifiedInput]
            simpa using hOc
          · rw [heqR, postSolveSt_fetchErrCmdline]
            simpa using hOf
          · rw [heqR]
            by_cases hgg : fileExists (postSolveSt env solvedfn
                { stO with invoked := stO.invoked ++ [Tool.solveBackend],
                           beargsAtSolve := some (beargs ++ [shell_escape outfn]) }).fs solvedfn = true
            · constructor
              · intro _
                have hmem := hrdm hgg
                rw [postSolveSt_invoked]
                simp [List.mem_append, hmem]
              · intro _
                simp [hgg]
            · have hgf : fileExists (postSolveSt env solvedfn
                  { stO with invoked := stO.invoked ++ [Tool.solveBackend],
                             beargsAtSolve := some (beargs ++ [shell_escape outfn]) }).fs solvedfn = false := by
                simpa using hgg
              rcases hfalse hgf with ⟨hernil, -⟩
              constructor
              · intro hg
                rw [hgf] at hg
                simp at hg
              · intro hm
                rw [hernil, postSolveSt_invoked] at hm
                simp only [List.append_nil] at hm
                rw [hOi] at hm
                exact absurd hm hrdXs
          · intro _
            exact ⟨_, rfl⟩
          · right
            rw [heqR, postSolveSt_beargsAtSolve]
          · intro stO3 bf heq
            injection heq with heq2
            injection heq2 with heq3 hbf
            exact hbf.symm

/-- `preSolveSt` leaves the plotting flag alone. -/
theorem preSolveSt_makeplots (env : Env) (inf : String) (st : St) :
    (preSolveSt env inf st).makeplots = st.makeplots := by
  simp [preSolveSt]

/-- Master characterization of one iteration: the solved gate is recorded
exactly when the reprojector runs, a negative gate always completes the
iteration non-fatally, and the backend argument list observed at the
solve step is exactly the truncated batch prefix plus the escaped
coordinate-list token. -/
theorem runInput_master (cfg : Config) (env : Env) (nbeargs : Nat)
    (beargsIn : List String) (mp : Bool) (fs0 : FS) (infile name : String) :
    ((runInput cfg env nbeargs beargsIn mp fs0 infile name).st.solvedGate = some true
      ↔ Tool.rd2xy ∈ (runInput cfg env nbeargs beargsIn mp fs0 infile name).st.invoked)
    ∧ ((runInput cfg env nbeargs beargsIn mp fs0 infile name).st.solvedGate = some false
      → (runInput cfg env nbeargs beargsIn mp fs0 infile name).outcome = .done)
    ∧ (∀ l, (runInput cfg env nbeargs beargsIn mp fs0 infile name).st.beargsAtSolve = some l
      → l = beargsIn.take nbeargs
          ++ [shell_escape ((runInput cfg env nbeargs beargsIn mp fs0 infile name).outfn)])
    ∧ ((runInput cfg env nbeargs beargsIn mp fs0 infile name).beargsOut = beargsIn.take nbeargs
      ∨ (runInput cfg env nbeargs beargsIn mp fs0 infile name).beargsOut
        = beargsIn.take nbeargs
          ++ [shell_escape ((runInput cfg env nbeargs beargsIn mp fs0 infile name).outfn)]) := by
  unfold runInput
  dsimp only
  cases hskip : skipSolvedFires cfg.skip_solved cfg.solvedinfn0
      ((trimSuffix name).1 ++ ".solved") fs0
  · simp only [Bool.false_eq_true, if_false]
    cases hres : resolveOutputs cfg.cont cfg.overwrite env.failUnlink fs0
        (derivedOutfiles cfg.solvedinfn0 name) with
    | skip fs1 =>
      refine ⟨?_, ?_, ?_, ?_⟩ <;> simp [finishNonFatal]
    | fatalR fs1 =>
      refine ⟨?_, ?_, ?_, ?_⟩ <;> simp
    | proceed fs1 =>
      simp only [pipelineAfterResolve]
      by_cases hw : wantsFetch fs1 infile = true
      · cases hfo : env.fetchOutcome with
        | success =>
          simp only [fetchPhase]
          rw [if_pos (by simpa using hw)]
          simp only [hfo]
          rcases pipelineAfterFetch_spec cfg env (beargsIn.take nbeargs)
            ((trimSuffix name).1 ++ ".axy") ((trimSuffix name).1 ++ ".solved")
            ((trimSuffix name).1 ++ "-objs.png")
            { fs := fsAdd fs1 ((mkOutfiles (trimSuffix name).1 (trimSuffix name).2).2),
              invoked := [] ++ [Tool.fetch], tempfiles := [], makeplots := mp,
              classifiedInput := none, solvedGate := none, fetchErrCmdline := none,
              beargsAtSolve := none }
            ((mkOutfiles (trimSuffix name).1 (trimSuffix name).2).2)
            rfl (by simp) rfl
            with ⟨ext, hi, hnf, hci, hfec, hiff, hfalse, hbas, hok⟩
          cases hpipe : pipelineAfterFetch cfg env (beargsIn.take nbeargs)
              ((trimSuffix name).1 ++ ".axy") ((trimSuffix name).1 ++ ".solved")
              ((trimSuffix name).1 ++ "-objs.png")
              { fs := fsAdd fs1 ((mkOutfiles (trimSuffix name).1 (trimSuffix name).2).2),
                invoked := [] ++ [Tool.fetch], tempfiles := [], makeplots := mp,
                classifiedInput := none, solvedGate := none, fetchErrCmdline := none,
                beargsAtSolve := none }
              ((mkOutfiles (trimSuffix name).1 (trimSuffix name).2).2) with
          | error stE =>
            rw [hpipe] at hiff hfalse hbas
            simp only [stOfP] at hiff hfalse hbas
            refine ⟨hiff, ?_, ?_, Or.inl rfl⟩
            · intro hg
              rcases hfalse hg with ⟨pr, hpr⟩
              cases hpr
            · intro l hl
              rcases hbas with hb | hb
              · rw [hb] at hl
                cases hl
              · rw [hb] at hl
                injection hl with hl2
                exact hl2.symm
          | ok pr =>
            rcases pr with ⟨stO, bf⟩
            rw [hpipe] at hiff hbas
            simp only [stOfP] at hiff hbas
            refine ⟨by simpa [finishNonFatal] using hiff, fun _ => rfl, ?_, ?_⟩
            · intro l hl
              simp only [finishNonFatal] at hl
              rcases hbas with hb | hb
              · rw [hb] at hl
                cases hl
              · rw [hb] at hl
                injection hl with hl2
                exact hl2.symm
            · right
              simpa [finishNonFatal] using hok stO bf hpipe
        | failure c =>
          simp only [fetchPhase]
          rw [if_pos (by simpa using hw)]
          simp only [hfo]
          refine ⟨by simp, by simp, by simp, Or.inl ?_⟩
          simp
      · simp only [fetchPhase]
        rw [if_neg (by simpa using hw)]
        dsimp only
        rcases pipelineAfterFetch_spec cfg env (beargsIn.take nbeargs)
          ((trimSuffix name).1 ++ ".axy") ((trimSuffix name).1 ++ ".solved")
          ((trimSuffix name).1 ++ "-objs.png")
          { fs := fs1, invoked := [], tempfiles := [], makeplots := mp,
            classifiedInput := none, solvedGate := none, fetchErrCmdline := none,
            beargsAtSolve := none }
          infile rfl (by simp) rfl
          with ⟨ext, hi, hnf, hci, hfec, hiff, hfalse, hbas, hok⟩
        cases hpipe : pipelineAfterFetch cfg env (beargsIn.take nbeargs)
            ((trimSuffix name).1 ++ ".axy") ((trimSuffix name).1 ++ ".solved")
            ((trimSuffix name).1 ++ "-objs.png")
            { fs := fs1, invoked := [], tempfiles := [], makeplots := mp,
              classifiedInput := none, solvedGate := none, fetchErrCmdline := none,
              beargsAtSolve := none }
            infile with
        | error stE =>
          rw [hpipe] at hiff hfalse hbas
          simp only [stOfP] at hiff hfalse hbas
          refine ⟨hiff, ?_, ?_, Or.inl rfl⟩
          · intro hg
            rcases hfalse hg with ⟨pr, hpr⟩
            cases hpr
          · intro l hl
            rcases hbas with hb | hb
            · rw [hb] at hl
              cases hl
            · rw [hb] at hl
              injection hl with hl2
              exact hl2.symm
        | ok pr =>
          rcases pr with ⟨stO, bf⟩
          rw [hpipe] at hiff hbas
          simp only [stOfP] at hiff hbas
          refine ⟨by simpa [finishNonFatal] using hiff, fun _ => rfl, ?_, ?_⟩
          · intro l hl
            simp only [finishNonFatal] at hl
            rcases hbas with hb | hb
            · rw [hb] at hl
              cases hl
            · rw [hb] at hl
              injection hl with hl2
              exact hl2.symm
          · right
            simpa [finishNonFatal] using hok stO bf hpipe
  · simp only [if_pos rfl]
    refine ⟨?_, ?_, ?_, ?_⟩ <;> simp [finishNonFatal]

/-- A batch whose recorded iterations are all non-fatal exits with
status 0 (line 711). -/
theorem runBatchAux_exit_zero (cfg : Config) (nbeargs : Nat)
    (inputs : List InputSpec) : ∀ beargs mp fs,
    (∀ r ∈ (runBatchAux cfg nbeargs beargs mp fs inputs).results,
        r.outcome ≠ IterOutcome.fatal) →
    (runBatchAux cfg nbeargs beargs mp fs inputs).exit = 0 := by
  induction inputs with
  | nil =>
    intro beargs mp fs _
    rfl
  | cons inp rest ih =>
    intro beargs mp fs h
    by_cases hf : (runInput cfg inp.env nbeargs beargs mp fs inp.infile inp.name).outcome
        = IterOutcome.fatal
    · refine absurd hf (h _ ?_)
      simp [runBatchAux, hf]
    · have hstep : runBatchAux cfg nbeargs beargs mp fs (inp :: rest)
          = { exit := (runBatchAux cfg nbeargs
                (runInput cfg inp.env nbeargs beargs mp fs inp.infile inp.name).beargsOut
                (runInput cfg inp.env nbeargs beargs mp fs inp.infile inp.name).st.makeplots
                (runInput cfg inp.env nbeargs beargs mp fs inp.infile inp.name).st.fs rest).exit,
              results := (runInput cfg inp.env nbeargs beargs mp fs inp.infile inp.name)
                :: (runBatchAux cfg nbeargs
                  (runInput cfg inp.env nbeargs beargs mp fs inp.infile inp.name).beargsOut
                  (runInput cfg inp.env nbeargs beargs mp fs inp.infile inp.name).st.makeplots
                  (runInput cfg inp.env nbeargs beargs mp fs inp.infile inp.name).st.fs rest).results } := by
        simp [runBatchAux, hf]
      rw [hstep]
      apply ih
      intro r2 hr2
      apply h
      rw [hstep]
      exact List.mem_cons_of_mem _ hr2

/-- Through a whole batch, every backend argument list observed at a solve
step is the batch-wide prefix plus the current file's escaped token. -/
theorem runBatchAux_beargs (cfg : Config) (beargs0 : List String)
    (inputs : List InputSpec) : ∀ beargs mp fs,
    beargs.take beargs0.length = beargs0 →
    ∀ r ∈ (runBatchAux cfg beargs0.length beargs mp fs inputs).results, ∀ l,
      r.st.beargsAtSolve = some l → l = beargs0 ++ [shell_escape r.outfn] := by
  induction inputs with
  | nil =>
    intro beargs mp fs _ r hr
    cases hr
  | cons inp rest ih =>
    intro beargs mp fs hpre r hr l hl
    rcases runInput_master cfg inp.env beargs0.length beargs mp fs inp.infile inp.name
      with ⟨-, -, hbas, hout⟩
    by_cases hf : (runInput cfg inp.env beargs0.length beargs mp fs inp.infile inp.name).outcome
        = IterOutcome.fatal
    · have hrr : r = runInput cfg inp.env beargs0.length beargs mp fs inp.infile inp.name := by
        simpa [runBatchAux, hf] using hr
      subst hrr
      rw [hbas l hl, hpre]
    · have hstep : runBatchAux cfg beargs0.length beargs mp fs (inp :: rest)
          = { exit := (runBatchAux cfg beargs0.length
                (runInput cfg inp.env beargs0.length beargs mp fs inp.infile inp.name).beargsOut
                (runInput cfg inp.env beargs0.length beargs mp fs inp.infile inp.name).st.makeplots
                (runInput cfg inp.env beargs0.length beargs mp fs inp.infile inp.name).st.fs rest).exit,
              results := (runInput cfg inp.env beargs0.length beargs mp fs inp.infile inp.name)
                :: (runBatchAux cfg beargs0.length
                  (runInput cfg inp.env beargs0.length beargs mp fs inp.infile inp.name).beargsOut
                  (runInput cfg inp.env beargs0.length beargs mp fs inp.infile inp.name).st.makeplots
                  (runInput cfg inp.env beargs0.length beargs mp fs inp.infile inp.name).st.fs rest).results } := by
        simp [runBatchAux, hf]
      rw [hstep] at hr
      rcases List.mem_cons.mp hr with hrr | hrr
    -- continued below
      · subst hrr
        rw [hbas l hl, hpre]
      · have hpre2 : (runInput cfg inp.env beargs0.length beargs mp fs
            inp.infile inp.name).beargsOut.take beargs0.length = beargs0 := by
          rcases hout with ho | ho
          · rw [ho, List.take_take]
            simp [hpre]
          · rw [ho, hpre]
            exact List.take_left _ _
        exact ih _ _ _ hpre2 r hrr l hl

/-- **C6.** The post-solve reporting/plotting stage is entered if and only
if the derived solved-flag path exists after the Solve Stage (witnessed by
the reprojector invocation); its absence is a silent, non-error outcome —
the iteration completes normally; and on normal completion of the batch
loop (no fatal iteration) the process exits with status 0, even when
individual inputs were skipped or did not solve. -/
theorem c6_solved_gate_and_exit_status (cfg : Config) (env : Env)
    (nbeargs : Nat) (beargsIn : List String) (mp : Bool) (fs0 : FS)
    (infile name : String) (cfg2 : Config) (beargs0 : List String)
    (mp2 : Bool) (fsb : FS) (inputs : List InputSpec) :
    ((runInput cfg env nbeargs beargsIn mp fs0 infile name).st.solvedGate = some true
      ↔ Tool.rd2xy ∈ (runInput cfg env nbeargs beargsIn mp fs0 infile name).st.invoked)
    ∧ ((runInput cfg env nbeargs beargsIn mp fs0 infile name).st.solvedGate = some false
      → (runInput cfg env nbeargs beargsIn mp fs0 infile name).outcome = .done)
    ∧ ((∀ r ∈ (runBatch cfg2 beargs0 mp2 fsb inputs).results,
          r.outcome ≠ IterOutcome.fatal)
      → (runBatch cfg2 beargs0 mp2 fsb inputs).exit = 0) :=
  ⟨(runInput_master cfg env nbeargs beargsIn mp fs0 infile name).1,
   (runInput_master cfg env nbeargs beargsIn mp fs0 infile name).2.1,
   fun h => runBatchAux_exit_zero cfg2 beargs0.length inputs beargs0 mp2 fsb h⟩

/-- Witness for C6: a two-input batch — one input skipped because its
outputs exist, one that does not solve — still exits with status 0, and
the unsolved input's negative gate completes the iteration. -/
theorem c6_solved_gate_and_exit_status_witness :
    (runBatch cfgDefault ["backend"] false ["b.solved"]
      [⟨"a.xyls", "a.xyls", envBase⟩, ⟨"b.xyls", "b.xyls", envBase⟩]).exit = 0
    ∧ ((runInput cfgDefault envBase 1 ["backend"] false [] "a.xyls" "a.xyls").st.solvedGate
        = some false
      → (runInput cfgDefault envBase 1 ["backend"] false [] "a.xyls" "a.xyls").outcome = .done) :=
  ⟨(c6_solved_gate_and_exit_status cfgDefault envBase 1 ["backend"] false []
      "a.xyls" "a.xyls" cfgDefault ["backend"] false ["b.solved"]
      [⟨"a.xyls", "a.xyls", envBase⟩, ⟨"b.xyls", "b.xyls", envBase⟩]).2.2 (by decide),
   (c6_solved_gate_and_exit_status cfgDefault envBase 1 ["backend"] false []
      "a.xyls" "a.xyls" cfgDefault ["backend"] false ["b.solved"]
      [⟨"a.xyls", "a.xyls", envBase⟩, ⟨"b.xyls", "b.xyls", envBase⟩]).2.1⟩

/-- **C9.** Whenever a solve command is assembled during a batch, the
shared backend argument list equals exactly the batch-wide prefix
(captured once before the loop) followed by one token: the shell-escaped
canonical coordinate-list path of the current input.  The list is
truncated back to the prefix at the start of every iteration, so this
holds for every input of the batch. -/
theorem c9_backend_args_prefix_reset (cfg : Config) (beargs0 : List String)
    (mp : Bool) (fs : FS) (inputs : List InputSpec) (r : IterResult)
    (hr : r ∈ (runBatch cfg beargs0 mp fs inputs).results) (l : List String)
    (hl : r.st.beargsAtSolve = some l) :
    l = beargs0 ++ [shell_escape r.outfn] :=
  runBatchAux_beargs cfg beargs0 inputs beargs0 mp fs
    (List.take_length beargs0) r hr l hl

/-- Witness for C9: the one observed solve command of a one-input batch. -/
theorem c9_backend_args_prefix_reset_witness :
    (["backend", shell_escape "a.axy"] : List String)
      = ["backend"] ++ [shell_escape c9WitnessResult.outfn] :=
  c9_backend_args_prefix_reset cfgDefault ["backend"] false ["a.xyls"]
    [⟨"a.xyls", "a.xyls", envSolved⟩] c9WitnessResult (by decide)
    ["backend", shell_escape "a.axy"] (by decide)

/-- Reduction of an iteration that passes both skip checks. -/
theorem runInput_proceed (cfg : Config) (env : Env) (nbeargs : Nat)
    (beargsIn : List String) (mp : Bool) (fs0 : FS) (infile name : String)
    (fs1 : FS)
    (hss : skipSolvedFires cfg.skip_solved cfg.solvedinfn0
      ((trimSuffix name).1 ++ ".solved") fs0 = false)
    (hres : resolveOutputs cfg.cont cfg.overwrite env.failUnlink fs0
      (derivedOutfiles cfg.solvedinfn0 name) = .proceed fs1) :
    runInput cfg env nbeargs beargsIn mp fs0 infile name =
      (match pipelineAfterResolve cfg env (beargsIn.take nbeargs) infile
          ((mkOutfiles (trimSuffix name).1 (trimSuffix name).2).2)
          ((trimSuffix name).1 ++ ".axy") ((trimSuffix name).1 ++ ".solved")
          ((trimSuffix name).1 ++ "-objs.png")
          { fs := fs1, invoked := [], tempfiles := [], makeplots := mp,
            classifiedInput := none, solvedGate := none, fetchErrCmdline := none,
            beargsAtSolve := none } with
        | .error st =>
          { outcome := .fatal, st := st, beargsOut := beargsIn.take nbeargs,
            outfn := (trimSuffix name).1 ++ ".axy" }
        | .ok (st, bf) =>
          finishNonFatal .done env.failUnlink st bf ((trimSuffix name).1 ++ ".axy")) := by
  unfold runInput
  dsimp only
  simp only [hss, Bool.false_eq_true, if_false, hres]

/-- **C4.** The external fetch tool is invoked for an input (that passed
the skip checks) if and only if the input reference does not exist as a
local file and begins case-insensitively with "http://" or "ftp://"
(`wantsFetch`, checked against the post-scan filesystem); a nonzero or
cancelled fetch result makes the iteration fatal with no classifier,
preparer or solver invocation; on success the derived downloaded-copy
path replaces the input reference for all subsequent stages (it is the
path handed to the classifier and preparer). -/
theorem c4_acquisition_stage (cfg : Config) (env : Env) (nbeargs : Nat)
    (beargsIn : List String) (mp : Bool) (fs0 : FS) (infile name : String)
    (fs1 : FS)
    (hss : skipSolvedFires cfg.skip_solved cfg.solvedinfn0
      ((trimSuffix name).1 ++ ".solved") fs0 = false)
    (hres : resolveOutputs cfg.cont cfg.overwrite env.failUnlink fs0
      (derivedOutfiles cfg.solvedinfn0 name) = .proceed fs1) :
    (Tool.fetch ∈ (runInput cfg env nbeargs beargsIn mp fs0 infile name).st.invoked
      ↔ wantsFetch fs1 infile = true)
    ∧ (wantsFetch fs1 infile = true → env.fetchOutcome ≠ .success →
        (runInput cfg env nbeargs beargsIn mp fs0 infile name).outcome = .fatal
        ∧ (runInput cfg env nbeargs beargsIn mp fs0 infile name).st.invoked = [Tool.fetch]
        ∧ Tool.augment ∉ (runInput cfg env nbeargs beargsIn mp fs0 infile name).st.invoked
        ∧ Tool.solveBackend ∉ (runInput cfg env nbeargs beargsIn mp fs0 infile name).st.invoked)
    ∧ (wantsFetch fs1 infile = true → env.fetchOutcome = .success →
        (runInput cfg env nbeargs beargsIn mp fs0 infile name).st.classifiedInput
          = some ((mkOutfiles (trimSuffix name).1 (trimSuffix name).2).2)) := by
  rw [runInput_proceed cfg env nbeargs beargsIn mp fs0 infile name fs1 hss hres]
  simp only [pipelineAfterResolve]
  by_cases hw : wantsFetch fs1 infile = true
  · cases hfo : env.fetchOutcome with
    | success =>
      simp only [fetchPhase]
      rw [if_pos (by simpa using hw)]
      simp only [hfo]
      rcases pipelineAfterFetch_spec cfg env (beargsIn.take nbeargs)
        ((trimSuffix name).1 ++ ".axy") ((trimSuffix name).1 ++ ".solved")
        ((trimSuffix name).1 ++ "-objs.png")
        { fs := fsAdd fs1 ((mkOutfiles (trimSuffix name).1 (trimSuffix name).2).2),
          invoked := [] ++ [Tool.fetch], tempfiles := [], makeplots := mp,
          classifiedInput := none, solvedGate := none, fetchErrCmdline := none,
          beargsAtSolve := none }
        ((mkOutfiles (trimSuffix name).1 (trimSuffix name).2).2)
        rfl (by simp) rfl
        with ⟨ext, hi, hnf, hci, hfec, hiff, hfalse, hbas, hok⟩
      cases hpipe : pipelineAfterFetch cfg env (beargsIn.take nbeargs)
          ((trimSuffix name).1 ++ ".axy") ((trimSuffix name).1 ++ ".solved")
          ((trimSuffix name).1 ++ "-objs.png")
          { fs := fsAdd fs1 ((mkOutfiles (trimSuffix name).1 (trimSuffix name).2).2),
            invoked := [] ++ [Tool.fetch], tempfiles := [], makeplots := mp,
            classifiedInput := none, solvedGate := none, fetchErrCmdline := none,
            beargsAtSolve := none }
          ((mkOutfiles (trimSuffix name).1 (trimSuffix name).2).2) with
      | error stE =>
        rw [hpipe] at hi hci
        simp only [stOfP] at hi hci
        refine ⟨?_, ?_, ?_⟩
        · rw [hi]
          simp [hw]
        · intro _ hne
          exact absurd rfl hne
        · intro _ _
          exact hci
      | ok pr =>
        rcases pr with ⟨stO, bf⟩
        rw [hpipe] at hi hci
        simp only [stOfP] at hi hci
        refine ⟨?_, ?_, ?_⟩
        · simp only [finishNonFatal]
          rw [hi]
          simp [hw]
        · intro _ hne
          exact absurd rfl hne
        · intro _ _
          simpa [finishNonFatal] using hci
    | failure c =>
      simp only [fetchPhase]
      rw [if_pos (by simpa using hw)]
      simp only [hfo]
      refine ⟨?_, ?_, ?_⟩
      · simp [hw]
      · intro _ _
        refine ⟨by simp, by simp, by simp, by simp⟩
      · intro _ hsucc
        exact absurd hsucc (by simp)
  · simp only [fetchPhase]
    rw [if_neg (by simpa using hw)]
    dsimp only
    rcases pipelineAfterFetch_spec cfg env (beargsIn.take nbeargs)
      ((trimSuffix name).1 ++ ".axy") ((trimSuffix name).1 ++ ".solved")
      ((trimSuffix name).1 ++ "-objs.png")
      { fs := fs1, invoked := [], tempfiles := [], makeplots := mp,
        classifiedInput := none, solvedGate := none, fetchErrCmdline := none,
        beargsAtSolve := none }
      infile rfl (by simp) rfl
      with ⟨ext, hi, hnf, hci, hfec, hiff, hfalse, hbas, hok⟩
    cases hpipe : pipelineAfterFetch cfg env (beargsIn.take nbeargs)
        ((trimSuffix name).1 ++ ".axy") ((trimSuffix name).1 ++ ".solved")
        ((trimSuffix name).1 ++ "-objs.png")
        { fs := fs1, invoked := [], tempfiles := [], makeplots := mp,
          classifiedInput := none, solvedGate := none, fetchErrCmdline := none,
          beargsAtSolve := none }
        infile with
    | error stE =>
      rw [hpipe] at hi
      simp only [stOfP] at hi
      refine ⟨?_, ?_, ?_⟩
      · rw [hi]
        simp only [List.nil_append]
        constructor
        · intro hm
          exact absurd hm hnf
        · intro hww
          rw [hww] at hw
          exact absurd rfl hw
      · intro hww
        rw [hww] at hw
        exact absurd rfl hw
      · intro hww
        rw [hww] at hw
        exact absurd rfl hw
    | ok pr =>
      rcases pr with ⟨stO, bf⟩
      rw [hpipe] at hi
      simp only [stOfP] at hi
      refine ⟨?_, ?_, ?_⟩
      · simp only [finishNonFatal]
        rw [hi]
        simp only [List.nil_append]
        constructor
        · intro hm
          exact absurd hm hnf
        · intro hww
          rw [hww] at hw
          exact absurd rfl hw
      · intro hww
        rw [hww] at hw
        exact absurd rfl hw
      · intro hww
        rw [hww] at hw
        exact absurd rfl hw

/-- Witness for C4: a remote reference fetched successfully routes the
downloaded copy into classification, and a failing fetch is fatal with
only the fetch tool invoked. -/
theorem c4_acquisition_stage_witness :
    Tool.fetch ∈ (runInput cfgDefault envC4w 1 ["backend"] false []
      "http://host/img.fits" "img.fits").st.invoked
    ∧ (runInput cfgDefault envC4w 1 ["backend"] false []
      "http://host/img.fits" "img.fits").st.classifiedInput
        = some "img-downloaded.fits"
    ∧ (runInput cfgDefault envC10 1 ["backend"] false []
      "http://host/img.fits" "img.fits").outcome = .fatal
    ∧ (runInput cfgDefault envC10 1 ["backend"] false []
      "http://host/img.fits" "img.fits").st.invoked = [Tool.fetch] :=
  ⟨(c4_acquisition_stage cfgDefault envC4w 1 ["backend"] false []
      "http://host/img.fits" "img.fits" [] (by decide) (by decide)).1.mpr (by decide),
   (c4_acquisition_stage cfgDefault envC4w 1 ["backend"] false []
      "http://host/img.fits" "img.fits" [] (by decide) (by decide)).2.2
      (by decide) (by decide),
   ((c4_acquisition_stage cfgDefault envC10 1 ["backend"] false []
      "http://host/img.fits" "img.fits" [] (by decide) (by decide)).2.1
      (by decide) (by decide)).1,
   ((c4_acquisition_stage cfgDefault envC10 1 ["backend"] false []
      "http://host/img.fits" "img.fits" [] (by decide) (by decide)).2.1
      (by decide) (by decide)).2.1⟩

/-- With plotting on and `plotxy` found, a successful first plot leaves
the state unchanged except for its invocation record. -/
theorem plot1Phase_ok_success (cfg : Config) (env : Env) (imagefn : Bool)
    (ppmfn outfn objsfn : String) (st : St) (hm : st.makeplots = true)
    (ex : String) (hfe : env.findExec "plotxy" = some ex)
    (hp : env.plot1Outcome = .success) :
    plot1Phase cfg env imagefn ppmfn outfn objsfn st
      = .ok { st with invoked := st.invoked ++ [Tool.plot1] } := by
  simp [plot1Phase, hm, hfe, hp]

/-- A non-cancelled first-plot failure merely clears `makeplots`. -/
theorem plot1Phase_ok_failure (cfg : Config) (env : Env) (imagefn : Bool)
    (ppmfn outfn objsfn : String) (st : St) (hm : st.makeplots = true)
    (ex : String) (hfe : env.findExec "plotxy" = some ex)
    (hp : env.plot1Outcome = .failure false) :
    plot1Phase cfg env imagefn ppmfn outfn objsfn st
      = .ok { st with invoked := st.invoked ++ [Tool.plot1], makeplots := false } := by
  simp [plot1Phase, hm, hfe, hp]

/-- A cancelled first-plot failure is fatal. -/
theorem plot1Phase_error_cancelled (cfg : Config) (env : Env) (imagefn : Bool)
    (ppmfn outfn objsfn : String) (st : St) (hm : st.makeplots = true)
    (ex : String) (hfe : env.findExec "plotxy" = some ex)
    (hp : env.plot1Outcome = .failure true) :
    plot1Phase cfg env imagefn ppmfn outfn objsfn st
      = .error { st with invoked := st.invoked ++ [Tool.plot1] } := by
  simp [plot1Phase, hm, hfe, hp]

/-- The solve step on a working backend. -/
theorem solveStep_ok (env : Env) (beargs : List String) (outfn : String)
    (st : St) (hbe : env.backendOk = true) :
    solveStep env beargs outfn st
      = .ok { st with invoked := st.invoked ++ [Tool.solveBackend],
                      beargsAtSolve := some (beargs ++ [shell_escape outfn]) } := by
  simp [solveStep, hbe]

/-- After a solving backend run, the solved-flag file exists. -/
theorem postSolveSt_gate (env : Env) (solvedfn : String) (st : St)
    (hs : env.solves = true) :
    fileExists (postSolveSt env solvedfn st).fs solvedfn = true := by
  simp [postSolveSt, hs, fileExists_fsAdd]

/-- A failing (or cancelled) second plotting pipe makes the reporting
phase fatal (lines 642-647). -/
theorem reportPhase_error_of_plot2_failure (env : Env) (imagefn : Bool)
    (solvedfn : String) (st : St)
    (hg : fileExists st.fs solvedfn = true) (hrd : env.rd2xyOk = true)
    (hwc : env.wcsReadOk = true) (hm : st.makeplots = true)
    (ex : String) (hfe : env.findExec "plotxy" = some ex)
    (hmo : env.matchOpenOk = true) (hmr : env.matchReadOk = true)
    (exq : String) (hq : env.findExec "plotquad" = some exq)
    (hp2 : env.plot2Outcome ≠ .success) :
    ∃ stE, reportPhase env imagefn solvedfn st = .error stE := by
  rw [reportPhase, if_pos hg]
  simp only [hrd, hwc]
  rw [if_neg (by decide : ¬((!true) = true)), if_neg (by decide : ¬((!true) = true))]
  unfold reportPlots
  cases hp2o : env.plot2Outcome with
  | success => exact absurd hp2o hp2
  | failure c =>
    have hm2 : ({ st with solvedGate := some true,
                          invoked := st.invoked ++ [Tool.rd2xy, Tool.readWcs] } : St).makeplots
        = true := by
      simpa using hm
    have hplot2 : plot2Phase env
        { st with solvedGate := some true,
                  invoked := st.invoked ++ [Tool.rd2xy, Tool.readWcs] }
      = .error { st with solvedGate := some true,
                         invoked := (st.invoked ++ [Tool.rd2xy, Tool.readWcs])
                           ++ [Tool.matchRead, Tool.plot2] } := by
      simp [plot2Phase, hm2, hm, hfe, hmo, hmr, hq, hp2o]
    exact ⟨_, by rw [hplot2]⟩

/-- The first-plot failure policy, walked through the post-acquisition
pipeline: a non-cancelled failure clears `makeplots` and processing goes
on to invoke the backend, with no further plot invocation this iteration;
a cancelled failure is fatal before the backend; with plotting intact, a
failing second plot pipe is fatal. -/
theorem pipelineAfterFetch_plots (cfg : Config) (env : Env)
    (beargs : List String) (outfn solvedfn objsfn : String) (st : St)
    (inf : String)
    (hmp : st.makeplots = true)
    (hsb : Tool.solveBackend ∉ st.invoked)
    (hp2n : Tool.plot2 ∉ st.invoked)
    (hpcn : Tool.plotConst ∉ st.invoked)
    (ex : String) (hfe : env.findExec "plotxy" = some ex)
    (haug : env.augmentOk = true) :
    (env.plot1Outcome = .failure false →
        (stOfP (pipelineAfterFetch cfg env beargs outfn solvedfn objsfn st inf)).makeplots = false
        ∧ Tool.solveBackend ∈ (stOfP (pipelineAfterFetch cfg env beargs outfn solvedfn objsfn st inf)).invoked
        ∧ Tool.plot2 ∉ (stOfP (pipelineAfterFetch cfg env beargs outfn solvedfn objsfn st inf)).invoked
        ∧ Tool.plotConst ∉ (stOfP (pipelineAfterFetch cfg env beargs outfn solvedfn objsfn st inf)).invoked)
    ∧ (env.plot1Outcome = .failure true →
        (∃ stE, pipelineAfterFetch cfg env beargs outfn solvedfn objsfn st inf = .error stE)
        ∧ Tool.solveBackend ∉ (stOfP (pipelineAfterFetch cfg env beargs outfn solvedfn objsfn st inf)).invoked)
    ∧ (∀ exq, env.plot1Outcome = .success → env.backendOk = true →
        env.solves = true → env.rd2xyOk = true → env.wcsReadOk = true →
        env.matchOpenOk = true → env.matchReadOk = true →
        env.findExec "plotquad" = some exq → env.plot2Outcome ≠ .success →
        ∃ stE, pipelineAfterFetch cfg env beargs outfn solvedfn objsfn st inf = .error stE) := by
  have hAm : (preSolveSt env inf st).makeplots = true := by
    rw [preSolveSt_makeplots, hmp]
  have hAi : (preSolveSt env inf st).invoked
      = st.invoked ++ [Tool.classify, Tool.augment] := by
    simp [preSolveSt]
  unfold pipelineAfterFetch
  simp only [haug]
  rw [if_neg (by decide : ¬((!true) = true))]
  refine ⟨?_, ?_, ?_⟩
  · intro hp1
    rw [plot1Phase_ok_failure cfg env (!env.isxyls) env.ppmfn outfn objsfn
      (preSolveSt env inf st) hAm ex hfe hp1]
    dsimp only
    cases hbe : env.backendOk
    · simp only [solveStep, hbe]
      rw [if_pos (show (!false) = true from rfl)]
      simp only [stOfP]
      refine ⟨by simp, by simp, ?_, ?_⟩
      · intro hm
        simp only [List.mem_append, hAi] at hm
        rcases hm with ((hm | hm) | hm) | hm
        · exact hp2n hm
        · rcases (by simpa using hm :
            Tool.plot2 = Tool.classify ∨ Tool.plot2 = Tool.augment) with hc | hc <;> cases hc
        · exact absurd (by simpa using hm : Tool.plot2 = Tool.plot1) (by decide)
        · exact absurd (by simpa using hm : Tool.plot2 = Tool.solveBackend) (by decide)
      · intro hm
        simp only [List.mem_append, hAi] at hm
        rcases hm with ((hm | hm) | hm) | hm
        · exact hpcn hm
        · rcases (by simpa using hm :
            Tool.plotConst = Tool.classify ∨ Tool.plotConst = Tool.augment) with hc | hc <;> cases hc
        · exact absurd (by simpa using hm : Tool.plotConst = Tool.plot1) (by decide)
        · exact absurd (by simpa using hm : Tool.plotConst = Tool.solveBackend) (by decide)
    · rw [solveStep_ok env beargs outfn _ hbe]
      dsimp only
      rcases reportPhase_spec env (!env.isxyls) solvedfn
        (postSolveSt env solvedfn
          { preSolveSt env inf st with
            invoked := ((preSolveSt env inf st).invoked ++ [Tool.plot1])
              ++ [Tool.solveBackend],
            makeplots := false,
            beargsAtSolve := some (beargs ++ [shell_escape outfn]) })
        with ⟨er, heqR, hrdm, hfalse, hallR, hmfR⟩
      have hBm : (postSolveSt env solvedfn
          { preSolveSt env inf st with
            invoked := ((preSolveSt env inf st).invoked ++ [Tool.plot1])
              ++ [Tool.solveBackend],
            makeplots := false,
            beargsAtSolve := some (beargs ++ [shell_escape outfn]) }).makeplots = false := by
        rw [postSolveSt_makeplots]
      have hernp := hmfR hBm
      cases hrep : reportPhase env (!env.isxyls) solvedfn
          (postSolveSt env solvedfn
            { preSolveSt env inf st with
              invoked := ((preSolveSt env inf st).invoked ++ [Tool.plot1])
                ++ [Tool.solveBackend],
              makeplots := false,
              beargsAtSolve := some (beargs ++ [shell_escape outfn]) }) with
      | error stE2 =>
        rw [hrep] at heqR
        simp only [stOfE] at heqR
        dsimp only
        simp only [stOfP]
        rw [heqR, postSolveSt_invoked]
        refine ⟨by simpa using hBm, by simp, ?_, ?_⟩
        · intro hm
          simp only [List.mem_append, hAi] at hm
          rcases hm with (((hm | hm) | hm) | hm) | hm
          · exact hp2n hm
          · rcases (by simpa using hm :
              Tool.plot2 = Tool.classify ∨ Tool.plot2 = Tool.augment) with hc | hc <;> cases hc
          · exact absurd (by simpa using hm : Tool.plot2 = Tool.plot1) (by decide)
          · exact absurd (by simpa using hm : Tool.plot2 = Tool.solveBackend) (by decide)
          · rcases hernp _ hm with hc | hc <;> cases hc
        · intro hm
          simp only [List.mem_append, hAi] at hm
          rcases hm with (((hm | hm) | hm) | hm) | hm
          · exact hpcn hm
          · rcases (by simpa using hm :
              Tool.plotConst = Tool.classify ∨ Tool.plotConst = Tool.augment) with hc | hc <;> cases hc
          · exact absurd (by simpa using hm : Tool.plotConst = Tool.plot1) (by decide)
          · exact absurd (by simpa using hm : Tool.plotConst = Tool.solveBackend) (by decide)
          · rcases hernp _ hm with hc | hc <;> cases hc
      | ok stO2 =>
        rw [hrep] at heqR
        simp only [stOfE] at heqR
        dsimp only
        simp only [stOfP]
        rw [heqR, postSolveSt_invoked]
        refine ⟨by simpa using hBm, by simp, ?_, ?_⟩
        · intro hm
          simp only [List.mem_append, hAi] at hm
          rcases hm with (((hm | hm) | hm) | hm) | hm
          · exact hp2n hm
          · rcases (by simpa using hm :
              Tool.plot2 = Tool.classify ∨ Tool.plot2 = Tool.augment) with hc | hc <;> cases hc
          · exact absurd (by simpa using hm : Tool.plot2 = Tool.plot1) (by decide)
          · exact absurd (by simpa using hm : Tool.plot2 = Tool.solveBackend) (by decide)
          · rcases hernp _ hm with hc | hc <;> cases hc
        · intro hm
          simp only [List.mem_append, hAi] at hm
          rcases hm with (((hm | hm) | hm) | hm) | hm
          · exact hpcn hm
          · rcases (by simpa using hm :
              Tool.plotConst = Tool.classify ∨ Tool.plotConst = Tool.augment) with hc | hc <;> cases hc
          · exact absurd (by simpa using hm : Tool.plotConst = Tool.plot1) (by decide)
          · exact absurd (by simpa using hm : Tool.plotConst = Tool.solveBackend) (by decide)
          · rcases hernp _ hm with hc | hc <;> cases hc
  · intro hp1
    rw [plot1Phase_error_cancelled cfg env (!env.isxyls) env.ppmfn outfn objsfn
      (preSolveSt env inf st) hAm ex hfe hp1]
    dsimp only
    refine ⟨⟨_, rfl⟩, ?_⟩
    simp only [stOfP]
    intro hm
    simp only [List.mem_append, hAi] at hm
    rcases hm with (hm | hm) | hm
    · exact hsb hm
    · rcases (by simpa using hm :
        Tool.solveBackend = Tool.classify ∨ Tool.solveBackend = Tool.augment) with hc | hc <;> cases hc
    · exact absurd (by simpa using hm : Tool.solveBackend = Tool.plot1) (by decide)
  · intro exq hp1 hbe hsolves hrd hwc hmo hmr hq hp2
    rw [plot1Phase_ok_success cfg env (!env.isxyls) env.ppmfn outfn objsfn
      (preSolveSt env inf st) hAm ex hfe hp1]
    dsimp only
    rw [solveStep_ok env beargs outfn _ hbe]
    dsimp only
    have hSm : (postSolveSt env solvedfn
        { preSolveSt env inf st with
          invoked := ((preSolveSt env inf st).invoked ++ [Tool.plot1])
            ++ [Tool.solveBackend],
          beargsAtSolve := some (beargs ++ [shell_escape outfn]) }).makeplots = true := by
      rw [postSolveSt_makeplots]
      simpa using hAm
    rcases reportPhase_error_of_plot2_failure env (!env.isxyls) solvedfn
      (postSolveSt env solvedfn
        { preSolveSt env inf st with
          invoked := ((preSolveSt env inf st).invoked ++ [Tool.plot1])
            ++ [Tool.solveBackend],
          beargsAtSolve := some (beargs ++ [shell_escape outfn]) })
      (postSolveSt_gate env solvedfn _ hsolves) hrd hwc hSm ex hfe hmo hmr exq hq hp2
      with ⟨stE, hrepE⟩
    rw [hrepE]
    exact ⟨stE, rfl⟩

/-- **C5.** With plotting enabled: a failure of the first (source-overlay)
plotting command that is not a user cancellation is non-fatal — it clears
the plotting flag for the remainder of the run (the batch loop threads the
returned flag into every later iteration) while the current input
continues into the solve stage, and no further plotting tool runs this
iteration; a user cancellation there is fatal before the backend runs;
a failure (cancelled or not) of the second (index-overlay) plotting
command is always fatal for the whole run. -/
theorem c5_plot_failure_asymmetry (cfg : Config) (env : Env) (nbeargs : Nat)
    (beargsIn : List String) (fs0 : FS) (infile name : String) (fs1 : FS)
    (hss : skipSolvedFires cfg.skip_solved cfg.solvedinfn0
      ((trimSuffix name).1 ++ ".solved") fs0 = false)
    (hres : resolveOutputs cfg.cont cfg.overwrite env.failUnlink fs0
      (derivedOutfiles cfg.solvedinfn0 name) = .proceed fs1)
    (hfetch : wantsFetch fs1 infile = false ∨ env.fetchOutcome = .success)
    (ex : String) (hfe : env.findExec "plotxy" = some ex)
    (haug : env.augmentOk = true) :
    (env.plot1Outcome = .failure false →
        (runInput cfg env nbeargs beargsIn true fs0 infile name).st.makeplots = false
        ∧ Tool.solveBackend ∈ (runInput cfg env nbeargs beargsIn true fs0 infile name).st.invoked
        ∧ Tool.plot2 ∉ (runInput cfg env nbeargs beargsIn true fs0 infile name).st.invoked
        ∧ Tool.plotConst ∉ (runInput cfg env nbeargs beargsIn true fs0 infile name).st.invoked)
    ∧ (env.plot1Outcome = .failure true →
        (runInput cfg env nbeargs beargsIn true fs0 infile name).outcome = .fatal
        ∧ Tool.solveBackend ∉ (runInput cfg env nbeargs beargsIn true fs0 infile name).st.invoked)
    ∧ (∀ exq, env.plot1Outcome = .success → env.backendOk = true →
        env.solves = true → env.rd2xyOk = true → env.wcsReadOk = true →
        env.matchOpenOk = true → env.matchReadOk = true →
        env.findExec "plotquad" = some exq → env.plot2Outcome ≠ .success →
        (runInput cfg env nbeargs beargsIn true fs0 infile name).outcome = .fatal) := by
  rw [runInput_proceed cfg env nbeargs beargsIn true fs0 infile name fs1 hss hres]
  simp only [pipelineAfterResolve]
  by_cases hw : wantsFetch fs1 infile = true
  · have hfs : env.fetchOutcome = .success := by
      rcases hfetch with hwf | hfs
      · rw [hw] at hwf
        cases hwf
      · exact hfs
    simp only [fetchPhase]
    rw [if_pos (by simpa using hw)]
    simp only [hfs]
    rcases pipelineAfterFetch_plots cfg env (beargsIn.take nbeargs)
      ((trimSuffix name).1 ++ ".axy") ((trimSuffix name).1 ++ ".solved")
      ((trimSuffix name).1 ++ "-objs.png")
      { fs := fsAdd fs1 ((mkOutfiles (trimSuffix name).1 (trimSuffix name).2).2),
        invoked := [] ++ [Tool.fetch], tempfiles := [], makeplots := true,
        classifiedInput := none, solvedGate := none, fetchErrCmdline := none,
        beargsAtSolve := none }
      ((mkOutfiles (trimSuffix name).1 (trimSuffix name).2).2)
      rfl (by simp) (by simp) (by simp) ex hfe haug with ⟨hA2, hB2, hC2⟩
    refine ⟨?_, ?_, ?_⟩
    · intro hp1
      rcases hA2 hp1 with ⟨hmf, hsb2, hp22, hpc2⟩
      cases hpipe : pipelineAfterFetch cfg env (beargsIn.take nbeargs)
          ((trimSuffix name).1 ++ ".axy") ((trimSuffix name).1 ++ ".solved")
          ((trimSuffix name).1 ++ "-objs.png")
          { fs := fsAdd fs1 ((mkOutfiles (trimSuffix name).1 (trimSuffix name).2).2),
            invoked := [] ++ [Tool.fetch], tempfiles := [], makeplots := true,
            classifiedInput := none, solvedGate := none, fetchErrCmdline := none,
            beargsAtSolve := none }
          ((mkOutfiles (trimSuffix name).1 (trimSuffix name).2).2) with
      | error stE =>
        rw [hpipe] at hmf hsb2 hp22 hpc2
        simp only [stOfP] at hmf hsb2 hp22 hpc2
        exact ⟨hmf, hsb2, hp22, hpc2⟩
      | ok pr =>
        rcases pr with ⟨stO, bf⟩
        rw [hpipe] at hmf hsb2 hp22 hpc2
        simp only [stOfP] at hmf hsb2 hp22 hpc2
        exact ⟨by simpa [finishNonFatal] using hmf,
          by simpa [finishNonFatal] using hsb2,
          by simpa [finishNonFatal] using hp22,
          by simpa [finishNonFatal] using hpc2⟩
    · intro hp1
      rcases hB2 hp1 with ⟨⟨stE, hPerr⟩, hsb2⟩
      rw [hPerr] at hsb2 ⊢
      simp only [stOfP] at hsb2
      exact ⟨rfl, hsb2⟩
    · intro exq hp1 hbe hsolves hrd hwc hmo hmr hq hp2
      rcases hC2 exq hp1 hbe hsolves hrd hwc hmo hmr hq hp2 with ⟨stE, hPerr⟩
      rw [hPerr]
  · simp only [fetchPhase]
    rw [if_neg (by simpa using hw)]
    dsimp only
    rcases pipelineAfterFetch_plots cfg env (beargsIn.take nbeargs)
      ((trimSuffix name).1 ++ ".axy") ((trimSuffix name).1 ++ ".solved")
      ((trimSuffix name).1 ++ "-objs.png")
      { fs := fs1, invoked := [], tempfiles := [], makeplots := true,
        classifiedInput := none, solvedGate := none, fetchErrCmdline := none,
        beargsAtSolve := none }
      infile rfl (by simp) (by simp) (by simp) ex hfe haug with ⟨hA2, hB2, hC2⟩
    refine ⟨?_, ?_, ?_⟩
    · intro hp1
      rcases hA2 hp1 with ⟨hmf, hsb2, hp22, hpc2⟩
      cases hpipe : pipelineAfterFetch cfg env (beargsIn.take nbeargs)
          ((trimSuffix name).1 ++ ".axy") ((trimSuffix name).1 ++ ".solved")
          ((trimSuffix name).1 ++ "-objs.png")
          { fs := fs1, invoked := [], tempfiles := [], makeplots := true,
            classifiedInput := none, solvedGate := none, fetchErrCmdline := none,
            beargsAtSolve := none }
          infile with
      | error stE =>
        rw [hpipe] at hmf hsb2 hp22 hpc2
        simp only [stOfP] at hmf hsb2 hp22 hpc2
        exact ⟨hmf, hsb2, hp22, hpc2⟩
      | ok pr =>
        rcases pr with ⟨stO, bf⟩
        rw [hpipe] at hmf hsb2 hp22 hpc2
        simp only [stOfP] at hmf hsb2 hp22 hpc2
        exact ⟨by simpa [finishNonFatal] using hmf,
          by simpa [finishNonFatal] using hsb2,
          by simpa [finishNonFatal] using hp22,
          by simpa [finishNonFatal] using hpc2⟩
    · intro hp1
      rcases hB2 hp1 with ⟨⟨stE, hPerr⟩, hsb2⟩
      rw [hPerr] at hsb2 ⊢
      simp only [stOfP] at hsb2
      exact ⟨rfl, hsb2⟩
    · intro exq hp1 hbe hsolves hrd hwc hmo hmr hq hp2
      rcases hC2 exq hp1 hbe hsolves hrd hwc hmo hmr hq hp2 with ⟨stE, hPerr⟩
      rw [hPerr]

/-- Witness for C5: the three plot-failure scenarios at concrete inputs —
non-cancelled first-plot failure disables plotting and still solves;
cancelled first-plot failure aborts before the backend; second-plot
failure aborts the run. -/
theorem c5_plot_failure_asymmetry_witness :
    ((runInput cfgDefault envC5a 1 ["backend"] true [] "a.xyls" "a.xyls").st.makeplots = false
      ∧ Tool.solveBackend ∈ (runInput cfgDefault envC5a 1 ["backend"] true []
          "a.xyls" "a.xyls").st.invoked
      ∧ Tool.plot2 ∉ (runInput cfgDefault envC5a 1 ["backend"] true []
          "a.xyls" "a.xyls").st.invoked
      ∧ Tool.plotConst ∉ (runInput cfgDefault envC5a 1 ["backend"] true []
          "a.xyls" "a.xyls").st.invoked)
    ∧ ((runInput cfgDefault envC5b 1 ["backend"] true [] "a.xyls" "a.xyls").outcome = .fatal
      ∧ Tool.solveBackend ∉ (runInput cfgDefault envC5b 1 ["backend"] true []
          "a.xyls" "a.xyls").st.invoked)
    ∧ (runInput cfgDefault envC5c 1 ["backend"] true [] "a.xyls" "a.xyls").outcome = .fatal :=
  ⟨(c5_plot_failure_asymmetry cfgDefault envC5a 1 ["backend"] [] "a.xyls" "a.xyls" []
      (by decide) (by decide) (Or.inl (by decide))
      "/usr/local/astrometry/bin/tool" rfl rfl).1 rfl,
   (c5_plot_failure_asymmetry cfgDefault envC5b 1 ["backend"] [] "a.xyls" "a.xyls" []
      (by decide) (by decide) (Or.inl (by decide))
      "/usr/local/astrometry/bin/tool" rfl rfl).2.1 rfl,
   (c5_plot_failure_asymmetry cfgDefault envC5c 1 ["backend"] [] "a.xyls" "a.xyls" []
      (by decide) (by decide) (Or.inl (by decide))
      "/usr/local/astrometry/bin/tool" rfl rfl).2.2
      "/usr/local/astrometry/bin/tool" rfl rfl rfl rfl rfl rfl rfl rfl (by decide)⟩

end SolveField
